import Mathlib

/-!
Verification development for the BWX binary codec of the PNX-Blender-IO
repository (addons/io_scene_bwx).

The Python sources build their byte-level decoders from the vendored
construct combinator library (imported as io_scene_bwx.construct, a copy of
the upstream construct 2.10 library, not shipped alongside the add-on
modules themselves).  We embed that combinator layer as a small deep-embedded
parser syntax with a single interpreter, and every declarative structure of
bwx_construct.py is then translated field by field into a value of that
syntax.  The writer (bwx_writer.py) and the importer logic (bwx_io.py) are
embedded as plain functions.

Modelling conventions, used throughout:
- bytes are natural numbers (every value produced by the embedded encoders
  is < 256; the decoders use the same masking arithmetic as the source);
- strings are modelled by their encoded byte lists (the EUC-KR / UTF-8
  encodings of the Python sources are abstracted away: all string constants
  appearing in the format are plain ASCII, where the encodings agree);
- IEEE-754 float fields are carried as their raw 4-byte little-endian bit
  patterns at the byte level, and as exact rationals where the importer or
  writer computes with the decoded numbers (the claims about those code
  paths are structural, not about rounding);
- Python exceptions become explicit error values.
-/

set_option maxRecDepth 8192

deriving instance DecidableEq for Except

/-! ## Byte-level primitives: variable-length integers

PackedInt (bwx_construct.py, class PackedInt) reads bytes while the high bit
is set; each byte contributes its low 7 bits, first byte least significant.
The vendored construct library's builtin VarInt decodes the same LEB128
ordering, so a single model covers both ("size" / VarInt and
"count" / PackedInt fields).  PackedInt additionally records how many bytes
the last parse consumed (self.length, served by sizeof()). -/

/-- Low-7-bit groups of a LEB128 number, in stream order, together with the
unread rest of the stream.  This mirrors the acc list built by
PackedInt._parse: read one byte, keep its low 7 bits, stop at the first byte
whose high bit is clear.  Returns none when the stream ends first
(construct raises a StreamError, i.e. a truncated stream). -/
def packedIntParseAux : List Nat → Option (List Nat × List Nat)
  | [] => none
  | b :: rest =>
    if b &&& 128 = 0 then some ([b &&& 127], rest)
    else match packedIntParseAux rest with
      | none => none
      | some (acc, r) => some ((b &&& 127) :: acc, r)

/-- Value reconstruction of PackedInt._parse: the groups are folded most
significant last, num = (num << 7) | b over the reversed acc list. -/
def packedValue (acc : List Nat) : Nat := acc.foldr (fun b n => n * 128 + b) 0

/-- Fuel-indexed body of the varint encoder loop (the loop runs at most x
iterations since x strictly shrinks, so fuel x below is always enough; the
fuel only serves structural recursion). -/
def buildVarIntAux : Nat → Nat → List Nat
  | 0, x => [x &&& 127]
  | fuel + 1, x =>
    if x > 127 then (128 ||| (x &&& 127)) :: buildVarIntAux fuel (x >>> 7)
    else [x &&& 127]

/-- VarInt encoder shared by PackedInt._build and BWXWriter._build_varint:
while x > 0x7F emit (x &&& 0x7F) ||| 0x80 and shift right by 7, then emit the
final byte with the high bit clear. -/
def buildVarIntNat (x : Nat) : List Nat := buildVarIntAux x x

theorem shift7_eq_div0 (v : Nat) : v >>> 7 = v / 128 :=
  Nat.shiftRight_eq_div_pow v 7

theorem buildVarIntAux_congr :
    ∀ f g x, x ≤ f → x ≤ g → buildVarIntAux f x = buildVarIntAux g x := by
  intro f
  induction f with
  | zero =>
    intro g x hf _
    have hx : x = 0 := Nat.le_zero.mp hf
    subst hx
    cases g with
    | zero => rfl
    | succ g => simp [buildVarIntAux]
  | succ f ih =>
    intro g x hf hg
    cases g with
    | zero =>
      have hx : x = 0 := Nat.le_zero.mp hg
      subst hx
      simp [buildVarIntAux]
    | succ g =>
      simp only [buildVarIntAux]
      by_cases h : x > 127
      · rw [if_pos h, if_pos h]
        have hs : x >>> 7 ≤ f := by
          rw [shift7_eq_div0]
          have := Nat.div_lt_self (show 0 < x by omega) (show 1 < 128 by norm_num)
          omega
        have hs2 : x >>> 7 ≤ g := by
          rw [shift7_eq_div0]
          have := Nat.div_lt_self (show 0 < x by omega) (show 1 < 128 by norm_num)
          omega
        rw [ih g (x >>> 7) hs hs2]
      · rw [if_neg h, if_neg h]

/-- Unfolding equation of the encoder. -/
theorem buildVarIntNat_eq (x : Nat) :
    buildVarIntNat x =
      if x > 127 then (128 ||| (x &&& 127)) :: buildVarIntNat (x >>> 7)
      else [x &&& 127] := by
  by_cases h : x > 127
  · obtain ⟨f, hf⟩ : ∃ f, x = f + 1 := ⟨x - 1, by omega⟩
    subst hf
    rw [if_pos h]
    show buildVarIntAux (f + 1) (f + 1) = _
    simp only [buildVarIntAux, if_pos h]
    have hs : (f + 1) >>> 7 ≤ f := by
      rw [shift7_eq_div0]
      have := Nat.div_lt_self (show 0 < f + 1 by omega) (show 1 < 128 by norm_num)
      omega
    rw [buildVarIntAux_congr f ((f + 1) >>> 7) ((f + 1) >>> 7) hs (Nat.le_refl _)]
    rfl
  · rw [if_neg h]
    cases x with
    | zero => rfl
    | succ f =>
      show buildVarIntAux (f + 1) (f + 1) = _
      simp only [buildVarIntAux, if_neg h]

/-- Errors raised by the writer-side varint builder. -/
inductive BuildErr where
  | negativeValue
  | valueTooLarge
  deriving DecidableEq

/-- BWXWriter._build_varint raises ValueError for a negative input
("VarInt cannot encode negative values"); PackedInt._build raises the
analogous IntegerError.  Non-negative inputs delegate to the shared loop. -/
def build_varint (v : Int) : Except BuildErr (List Nat) :=
  if v < 0 then .error .negativeValue else .ok (buildVarIntNat v.toNat)

/-! ## Deep-embedded parser combinator syntax

The vendored construct library threads an explicit stream through the
subconstructs of a Struct.  We mirror this with a tiny syntax of stream
actions and one interpreter; every construct declaration of bwx_construct.py
becomes a straight-line program in this syntax. -/

/-- Parse-time errors.  constMismatch is construct's ConstError (the spec's
BadSignature for the framing constants); truncated is construct's
StreamError on a short read (the spec's TruncatedStream, also covering an
unterminated varint and a missing NUL terminator); negLength is the
StreamError construct raises when a computed Bytes length is negative. -/
inductive PErr where
  | constMismatch
  | truncated
  | negLength
  deriving DecidableEq

/-- Result of running a parser: the parsed value plus the unconsumed rest of
the stream, or an error. -/
inductive PRes (α : Type) where
  | ok (a : α) (rest : List Nat)
  | err (e : PErr)
  deriving DecidableEq

/-- Modelled from the spec: the vendored construct combinator library
(io_scene_bwx.construct) is not among the shipped sources; its stream
actions are embedded as this syntax.  Constructors: return, failure, an
exact byte read (construct's stream_read, failing when fewer bytes remain,
spec section 7 TruncatedStream), a LEB128 varint read returning
(value, bytes consumed) (spec section 4.1), and sequencing. -/
inductive PSyn : Type → Type 1 where
  | pureP {α : Type} : α → PSyn α
  | failP {α : Type} : PErr → PSyn α
  | readBytesP : Nat → PSyn (List Nat)
  | varintP : PSyn (Nat × Nat)
  | bindP {α β : Type} : PSyn α → (α → PSyn β) → PSyn β

instance : Monad PSyn where
  pure := .pureP
  bind := .bindP

/-- Modelled from the spec: interpreter for the parser syntax over an
in-memory byte stream with a monotonically advancing cursor (spec
section 5), standing in for the vendored construct stream threading. -/
def run : {α : Type} → PSyn α → List Nat → PRes α
  | _, .pureP a, s => .ok a s
  | _, .failP e, _ => .err e
  | _, .readBytesP n, s => if n ≤ s.length then .ok (s.take n) (s.drop n) else .err .truncated
  | _, .varintP, s =>
    match packedIntParseAux s with
    | some (acc, r) => .ok (packedValue acc, acc.length) r
    | none => .err .truncated
  | _, .bindP p f, s =>
    match run p s with
    | .ok a s1 => run (f a) s1
    | .err e => .err e

/-! ## Derived combinators (construct primitives used by bwx_construct.py) -/

/-- Single byte read (construct's Byte format field). -/
def readByteP : PSyn Nat := do
  let bs ← PSyn.readBytesP 1
  pure (bs.headD 0)

/-- Modelled from the spec: construct's Const(bytes), absent with the
vendored library: read as many bytes as the literal and compare; a
mismatch is a ConstError (the spec's BadSignature for the framing
constants, section 4.3). -/
def constP (lit : List Nat) : PSyn Unit :=
  PSyn.bindP (PSyn.readBytesP lit.length)
    (fun got => if got = lit then PSyn.pureP () else PSyn.failP .constMismatch)

/-- VarInt value without the length (construct's VarInt field). -/
def varIntP : PSyn Nat := do
  let vl ← PSyn.varintP
  pure vl.1

/-- Little-endian value of a byte list (first byte least significant). -/
def leVal (bs : List Nat) : Nat := bs.foldr (fun b n => n * 256 + b) 0

/-- Int16ul: two bytes, little-endian unsigned. -/
def int16ulP : PSyn Nat := do
  let bs ← PSyn.readBytesP 2
  pure (leVal bs)

/-- Int32ul: four bytes, little-endian unsigned. -/
def int32ulP : PSyn Nat := do
  let bs ← PSyn.readBytesP 4
  pure (leVal bs)

/-- Int32sl: four bytes, little-endian two's-complement signed. -/
def int32slP : PSyn Int := do
  let n ← int32ulP
  pure (if n < 2 ^ 31 then (n : Int) else (n : Int) - 2 ^ 32)

/-- Float32l: four bytes; the value is carried as its raw little-endian
bit pattern (IEEE-754 decoding abstracted, see the header comment). -/
def float32P : PSyn Nat := do
  let bs ← PSyn.readBytesP 4
  pure (leVal bs)

/-- SByte (bwx_construct.py, SFormatField "<B" with negation): parse one
unsigned byte and return its negation. -/
def sByteP : PSyn Int := do
  let b ← readByteP
  pure (-(b : Int))

/-- SInt16sl (SFormatField "<H" with negation): parse an unsigned
little-endian 16-bit value and return its negation. -/
def sInt16slP : PSyn Int := do
  let n ← int16ulP
  pure (-(n : Int))

/-- Repeated subconstruct (construct's Array(count, subcon)); construct
iterates for i in range(count), so a negative Python count means zero
iterations, matched here by Nat counts (the callers truncate at 0). -/
def repeatP {α : Type} (p : PSyn α) : Nat → PSyn (List α)
  | 0 => pure []
  | n + 1 => do
    let x ← p
    let xs ← repeatP p n
    pure (x :: xs)

/-- Modelled from the spec: helper for the vendored construct CString —
bytes before the first NUL of a list, none when no NUL occurs.  CString
consumes bytes up to and including the terminator (spec section 8: the
trailing NUL is consumed and never appears in the decoded string); inside
a Prefixed substream a missing terminator exhausts the substream and
raises a StreamError. -/
def splitNul : List Nat → Option (List Nat)
  | [] => none
  | b :: rest => if b = 0 then some [] else (splitNul rest).map (b :: ·)

/-- Modelled from the spec: the vendored construct Prefixed(VarInt,
CString(..)) — a varint byte length, then that many bytes forming a
substream holding a NUL-terminated string (spec section 3, tag 0x53 and
block names).  The decoded string is modelled by its raw bytes before the
NUL. -/
def prefixedCStringP : PSyn (List Nat) := do
  let n ← varIntP
  let bs ← PSyn.readBytesP n
  match splitNul bs with
  | some s => pure s
  | none => PSyn.failP .truncated

/-- Modelled from the spec: the vendored construct
Prefixed(VarInt, GreedyBytes) — a varint byte length, then that many raw
bytes (spec section 3, tag 0x42). -/
def prefixedBytesP : PSyn (List Nat) := do
  let n ← varIntP
  PSyn.readBytesP n

/-- ASCII bytes of a string literal (all format constants are ASCII, where
the UTF-8 and EUC-KR encodings used by the source agree byte for byte). -/
def asc (s : String) : List Nat := s.data.map Char.toNat

/-! ## Prefix properties of the interpreter

Every parser consumes a prefix of its stream (run_suffix), and its behaviour
depends only on that consumed prefix (run_ext).  These hold for each syntax
constructor, hence for every embedded construct declaration; they drive the
framing-signature theorem for the whole-file structure. -/

/-- Helper: a successful varint read splits its stream, and the parse is
unchanged under replacing the unread rest. -/
theorem packedIntParseAux_split :
    ∀ s acc r, packedIntParseAux s = some (acc, r) →
      ∃ pre, s = pre ++ r ∧ ∀ t, packedIntParseAux (pre ++ t) = some (acc, t) := by
  intro s
  induction s with
  | nil => intro acc r h; simp [packedIntParseAux] at h
  | cons b rest ih =>
    intro acc r h
    by_cases hb : b &&& 128 = 0
    · simp [packedIntParseAux, hb] at h
      exact ⟨[b], by simp [h, packedIntParseAux, hb]⟩
    · simp only [packedIntParseAux, if_neg hb] at h
      split at h
      · simp at h
      · next acc2 r2 heq =>
        simp only [Option.some.injEq, Prod.mk.injEq] at h
        obtain ⟨pre2, hpre2, hext⟩ := ih acc2 r2 heq
        refine ⟨b :: pre2, by simp [hpre2, h.2], ?_⟩
        intro t
        simp [packedIntParseAux, hb, hext t, ← h.1, h.2]

/-- Property: a successful run leaves a suffix of the input as the rest. -/
theorem run_suffix {α : Type} (p : PSyn α) :
    ∀ s a r, run p s = .ok a r → ∃ pre, s = pre ++ r := by
  induction p with
  | pureP x => intro s a r h; simp [run] at h; exact ⟨[], by simp [h]⟩
  | failP e => intro s a r h; simp [run] at h
  | readBytesP n =>
    intro s a r h
    simp only [run] at h
    split at h
    · simp at h
      exact ⟨s.take n, by rw [← h.2, List.take_append_drop]⟩
    · simp at h
  | varintP =>
    intro s a r h
    simp only [run] at h
    split at h
    next acc r2 heq =>
      simp only [PRes.ok.injEq] at h
      obtain ⟨pre, hpre, _⟩ := packedIntParseAux_split s acc r2 heq
      exact ⟨pre, by rw [hpre, h.2]⟩
    next => simp at h
  | bindP p f ihp ihf =>
    intro s a r h
    simp only [run] at h
    split at h
    next a1 s1 heq =>
      obtain ⟨pre1, h1⟩ := ihp s a1 s1 heq
      obtain ⟨pre2, h2⟩ := ihf a1 s1 a r h
      exact ⟨pre1 ++ pre2, by simp [h1, h2]⟩
    next e heq => simp at h

/-- Property: a run that consumed exactly pre keeps its result when the
unread rest of the stream is replaced. -/
theorem run_ext {α : Type} (p : PSyn α) :
    ∀ pre r a, run p (pre ++ r) = .ok a r → ∀ t, run p (pre ++ t) = .ok a t := by
  induction p with
  | pureP x =>
    intro pre r a h t
    simp only [run, PRes.ok.injEq] at h
    have hpre : pre = [] := by
      have := congrArg List.length h.2
      simp at this
      exact this
    simp [run, hpre, h.1]
  | failP e => intro pre r a h; simp [run] at h
  | readBytesP n =>
    intro pre r a h t
    simp only [run] at h
    split at h
    next hle =>
      simp only [PRes.ok.injEq] at h
      have hlen : n = pre.length := by
        have := congrArg List.length h.2
        simp [List.length_drop] at this
        simp at hle
        omega
      subst hlen
      have htake : (pre ++ r).take pre.length = pre := List.take_left pre r
      simp only [run]
      rw [if_pos (by simp), List.take_left, List.drop_left]
      rw [htake] at h
      simp [h.1]
    next => simp at h
  | varintP =>
    intro pre r a h t
    simp only [run] at h
    split at h
    next acc r2 heq =>
      simp only [PRes.ok.injEq] at h
      obtain ⟨pre2, hpre2, hext⟩ := packedIntParseAux_split (pre ++ r) acc r2 heq
      rw [h.2] at hpre2
      have hpp : pre = pre2 := List.append_cancel_right hpre2
      subst hpp
      simp [run, hext t, h.1]
    next => simp at h
  | bindP p f ihp ihf =>
    intro pre r a h t
    simp only [run] at h
    split at h
    next a1 s1 heq =>
      obtain ⟨pre2, hpre2⟩ := run_suffix (f a1) s1 a r h
      obtain ⟨pre1, hpre1⟩ := run_suffix p (pre ++ r) a1 s1 heq
      rw [hpre2] at hpre1
      have hsplit : pre = pre1 ++ pre2 := by
        have : pre ++ r = (pre1 ++ pre2) ++ r := by rw [hpre1]; simp
        exact List.append_cancel_right this
      subst hsplit
      rw [hpre2] at heq
      have heq2 : run p ((pre1 ++ pre2) ++ r) = .ok a1 (pre2 ++ r) := by
        rw [List.append_assoc] at heq ⊢
        exact heq
      have hstep1 : ∀ u, run p (pre1 ++ u) = .ok a1 u := by
        intro u
        apply ihp pre1 (pre2 ++ r) a1
        rw [← List.append_assoc]
        exact heq2
      have hstep2 : ∀ u, run (f a1) (pre2 ++ u) = .ok a u := by
        intro u
        apply ihf a1 pre2 r a
        rw [← hpre2]
        exact h
      simp only [run, List.append_assoc]
      rw [hstep1 (pre2 ++ t)]
      exact hstep2 t
    next e heq => simp at h

/-! ## VarInt round trip

The encoder of BWXWriter._build_varint / PackedInt._build inverted by the
decoder of PackedInt._parse (and construct's VarInt). -/

/-- Low-7-bit groups the encoder emits for x, in stream order. -/
def varintGroups (x : Nat) : List Nat :=
  if h : x > 127 then (x &&& 127) :: varintGroups (x >>> 7)
  else [x &&& 127]
termination_by x
decreasing_by
  simp only [Nat.shiftRight_eq_div_pow]
  exact Nat.div_lt_self (by omega) (by norm_num)

theorem and127_eq_mod (v : Nat) : v &&& 127 = v % 128 := by
  have h := Nat.and_pow_two_sub_one_eq_mod v 7
  norm_num at h
  exact h

theorem and127_lt (v : Nat) : v &&& 127 < 128 := by
  rw [and127_eq_mod]
  exact Nat.mod_lt v (by norm_num)

theorem shift7_eq_div (v : Nat) : v >>> 7 = v / 128 :=
  Nat.shiftRight_eq_div_pow v 7

theorem small_and_128 : ∀ y < 128, y &&& 128 = 0 := by decide

theorem small_and_127 : ∀ y < 128, y &&& 127 = y := by decide

theorem or128_and_128 : ∀ y < 128, (128 ||| y) &&& 128 = 128 := by decide

theorem or128_and_127 : ∀ y < 128, (128 ||| y) &&& 127 = y := by decide

/-- Decoding an encoded varint (followed by anything) recovers exactly the
encoder's groups and leaves the rest untouched. -/
theorem packedIntParseAux_build (v : Nat) :
    ∀ t, packedIntParseAux (buildVarIntNat v ++ t) = some (varintGroups v, t) := by
  induction v using Nat.strong_induction_on with
  | _ v ih =>
    intro t
    by_cases h : v > 127
    · rw [buildVarIntNat_eq, varintGroups]
      simp only [if_pos h, dif_pos h, List.cons_append]
      have hy := and127_lt v
      rw [packedIntParseAux, if_neg (by rw [or128_and_128 _ hy]; omega)]
      have hrec : v >>> 7 < v := by
        rw [shift7_eq_div]
        exact Nat.div_lt_self (by omega) (by norm_num)
      rw [ih (v >>> 7) hrec t, or128_and_127 _ hy]
    · rw [buildVarIntNat_eq, varintGroups]
      simp only [if_neg h, dif_neg h, List.cons_append, List.nil_append]
      have hy := and127_lt v
      rw [packedIntParseAux, if_pos (small_and_128 _ hy), small_and_127 _ hy]

/-- Decoded value of the encoder's groups is the encoded number. -/
theorem packedValue_varintGroups (v : Nat) : packedValue (varintGroups v) = v := by
  induction v using Nat.strong_induction_on with
  | _ v ih =>
    by_cases h : v > 127
    · rw [varintGroups]
      simp only [dif_pos h]
      have hrec : v >>> 7 < v := by
        rw [shift7_eq_div]
        exact Nat.div_lt_self (by omega) (by norm_num)
      show packedValue (varintGroups (v >>> 7)) * 128 + (v &&& 127) = v
      rw [ih (v >>> 7) hrec, shift7_eq_div, and127_eq_mod]
      omega
    · rw [varintGroups]
      simp only [dif_neg h]
      show 0 * 128 + (v &&& 127) = v
      rw [and127_eq_mod]
      omega

/-- Group count and emitted byte count agree. -/
theorem varintGroups_length (v : Nat) :
    (varintGroups v).length = (buildVarIntNat v).length := by
  induction v using Nat.strong_induction_on with
  | _ v ih =>
    by_cases h : v > 127
    · rw [varintGroups, buildVarIntNat_eq]
      simp only [dif_pos h, if_pos h, List.length_cons]
      have hrec : v >>> 7 < v := by
        rw [shift7_eq_div]
        exact Nat.div_lt_self (by omega) (by norm_num)
      rw [ih (v >>> 7) hrec]
    · rw [varintGroups, buildVarIntNat_eq]
      simp only [dif_neg h, if_neg h]

/-- Round trip at the interpreter level: a varint field parses the encoded
bytes back to the value together with the encoded length. -/
theorem run_varintP_build (v : Nat) (t : List Nat) :
    run PSyn.varintP (buildVarIntNat v ++ t) =
      .ok (v, (buildVarIntNat v).length) t := by
  simp only [run, packedIntParseAux_build v t, packedValue_varintGroups,
    varintGroups_length]

/-! ## Tagged values (bwx_value and friends, bwx_construct.py)

A parsed construct Container is modelled by a typed record per declared
Struct, holding exactly the declared fields.  The heterogeneous Python
values a bwx_value can decode to are collected in BVal; Python integers
(signed results included) are a single int constructor, matching the
untyped ints the source manipulates. -/

/-- Parsed bwx_array Struct: "size" / VarInt, "count" / PackedInt,
"data" / Bytes(size - count.sizeof()). -/
structure ArrRec where
  size : Nat
  count : Nat
  data : List Nat
  deriving DecidableEq

/-- Entry of a bwx_darray: a prefixed EUC-KR name plus a nested
Const-A-headed bwx_array. -/
structure DArrEntry where
  name : List Nat
  arr : ArrRec
  deriving DecidableEq

/-- Parsed bwx_darray Struct. -/
structure DArrRec where
  size : Nat
  count : Nat
  entries : List DArrEntry
  deriving DecidableEq

/-- Heterogeneous decoded payloads of a bwx_value.  pnone models Python
None, produced by the vendored construct Switch when the tag byte matches
no case: construct 2.10's Switch substitutes Pass for a missing default
(the source relies on this: bwx_value's Computed line keeps the tag itself
as the value for tags below 0x20, and bwx_main_block_struct passes an
explicit default where one is wanted). -/
inductive BVal where
  | pnone
  | int (v : Int)
  | f32 (bits : Nat)
  | str (bs : List Nat)
  | bytes (bs : List Nat)
  | arr (a : ArrRec)
  | darr (d : DArrRec)
  deriving DecidableEq

/-- Parsed bwx_value Struct: the tag byte, the tag-dependent payload, and
the Computed value field (the tag itself below 0x20, the payload
otherwise). -/
structure BwxValue where
  type : Nat
  data : BVal
  value : BVal
  deriving DecidableEq

/-- Parser of the bwx_array Struct.  The data length is the declared size
minus the byte length the count field itself occupied
(this._subcons.count.sizeof(), PackedInt's recorded length); a negative
Python difference makes construct's stream_read raise. -/
def bwx_array : PSyn ArrRec := do
  let size ← varIntP
  let cl ← PSyn.varintP
  if cl.2 ≤ size then
    let data ← PSyn.readBytesP (size - cl.2)
    pure ⟨size, cl.1, data⟩
  else PSyn.failP .negLength

/-- Parser of the bwx_darray Struct. -/
def bwx_darray : PSyn DArrRec := do
  let size ← varIntP
  let cl ← PSyn.varintP
  let entries ← repeatP (do
    let name ← prefixedCStringP
    constP (asc "A")
    let a ← bwx_array
    pure (⟨name, a⟩ : DArrEntry)) cl.1
  pure ⟨size, cl.1, entries⟩

/-- Parser of the bwx_value Struct: one tag byte, then
IfThenElse(type > 0x80, Bytes(type &&& 0x7f), Switch(type, cases)) and the
Computed value.  The Switch cases are the dictionary of bwx_construct.py in
order; an unmatched tag parses as Pass (None), see BVal.pnone. -/
def bwx_value : PSyn BwxValue := do
  let t ← readByteP
  let d ←
    if t > 0x80 then do
      let bs ← PSyn.readBytesP (t &&& 0x7f)
      pure (BVal.bytes bs)
    else if t = 0x41 then do
      let a ← bwx_array
      pure (BVal.arr a)
    else if t = 0x42 then do
      let bs ← prefixedBytesP
      pure (BVal.bytes bs)
    else if t = 0x43 then do
      let v ← sByteP
      pure (BVal.int v)
    else if t = 0x44 then do
      let d ← bwx_darray
      pure (BVal.darr d)
    else if t = 0x46 then do
      let bits ← float32P
      pure (BVal.f32 bits)
    else if t = 0x48 then do
      let v ← sInt16slP
      pure (BVal.int v)
    else if t = 0x49 then do
      let v ← int32slP
      pure (BVal.int v)
    else if t = 0x53 then do
      let s ← prefixedCStringP
      pure (BVal.str s)
    else if t = 0x57 then do
      let v ← int16ulP
      pure (BVal.int v)
    else if t = 0x59 then do
      let v ← readByteP
      pure (BVal.int v)
    else pure BVal.pnone
  pure ⟨t, d, if t < 0x20 then BVal.int t else d⟩

/-- Parser of the bwx_direction Struct: Const(b I) then an Int32ul carrying
the MNHX / MSHX enum; the raw 32-bit value is kept (the construct Enum
renders it as the EnumIntegerString MNHX or MSHX, compared against the
constants where used). -/
def bwx_direction : PSyn Nat := do
  constP (asc "I")
  int32ulP

/-- Little-endian bytes of struct.pack with format <H. -/
def le2 (v : Nat) : List Nat := [v % 256, v / 256 % 256]

/-- Little-endian bytes of struct.pack with format <I. -/
def le4 (v : Nat) : List Nat :=
  [v % 256, v / 256 % 256, v / 2 ^ 16 % 256, v / 2 ^ 24 % 256]

/-- Bytes of bwx_value.build(dict(type=SL_STRING, data=s)): tag 0x53, a
varint length of the NUL-terminated encoding, the bytes, the NUL. -/
def str_value_bytes (s : String) : List Nat :=
  0x53 :: (buildVarIntNat ((asc s).length + 1) ++ (asc s ++ [0]))

/-- Bytes of bwx_value.build(dict(type=SL_I32, data=v)): tag 0x49 and the
four little-endian bytes. -/
def i32_value_bytes (v : Nat) : List Nat := 0x49 :: le4 v

/-! ## Structural decoders (the declarative Structs of bwx_construct.py) -/

/-- Parsed bwx_header_struct. -/
structure HeadRec where
  size : Nat
  count : Nat
  name : BwxValue
  descr : BwxValue
  version : Nat
  other : BwxValue
  deriving DecidableEq

/-- Parser of bwx_header_struct: Const A, size, count, name, description,
the PNX magic Const, the version-type Const W, the 16-bit version enum
(raw value kept), and one trailing value. -/
def bwx_header_struct : PSyn HeadRec := do
  constP (asc "A")
  let size ← varIntP
  let count ← varIntP
  let name ← bwx_value
  let descr ← bwx_value
  constP (i32_value_bytes 0x504e5800)
  constP (asc "W")
  let version ← int16ulP
  let other ← bwx_value
  pure ⟨size, count, name, descr, version, other⟩

/-- Parser of bwx_0_struct: only the SLBWX string-value Const. -/
def bwx_0_struct : PSyn Unit := constP (str_value_bytes "SLBWX")

/-- Parsed bwx_texture_struct. -/
structure TexRec where
  size : Nat
  count : Nat
  most_0 : BwxValue
  filename : BwxValue
  deriving DecidableEq

/-- Parser of bwx_texture_struct. -/
def bwx_texture_struct : PSyn TexRec := do
  constP (asc "A")
  let size ← varIntP
  let count ← varIntP
  constP (str_value_bytes "TEX")
  let most_0 ← bwx_value
  let filename ← bwx_value
  pure ⟨size, count, most_0, filename⟩

/-- Parsed bwx_sub_material_struct; the texture is present only when the
declared field count exceeds 8 (If(this.count > 8, ...)). -/
structure SubMtrlRec where
  size : Nat
  count : Nat
  diffuse : BwxValue
  ambient : BwxValue
  specular : BwxValue
  some_float : BwxValue
  highlight : BwxValue
  most_1 : BwxValue
  unknown : BwxValue
  texture : Option TexRec
  deriving DecidableEq

/-- Parser of bwx_sub_material_struct. -/
def bwx_sub_material_struct : PSyn SubMtrlRec := do
  constP (asc "A")
  let size ← varIntP
  let count ← varIntP
  constP (str_value_bytes "SUBMTRL")
  let diffuse ← bwx_value
  let ambient ← bwx_value
  let specular ← bwx_value
  let some_float ← bwx_value
  let highlight ← bwx_value
  let most_1 ← bwx_value
  let unknown ← bwx_value
  let texture ←
    if count > 8 then do
      let t ← bwx_texture_struct
      pure (some t)
    else pure Option.none
  pure ⟨size, count, diffuse, ambient, specular, some_float, highlight,
    most_1, unknown, texture⟩

/-- Parsed entry of bwx_material_struct's material Array. -/
structure MtrlEntry where
  size : Nat
  count : Nat
  material_name : BwxValue
  sub_material : List SubMtrlRec
  deriving DecidableEq

/-- Parsed bwx_material_struct. -/
structure MtrlRec where
  size : Nat
  count : Nat
  material : List MtrlEntry
  deriving DecidableEq

/-- Parser of bwx_material_struct; each entry parses count - 2
sub-materials (Python range semantics: at most zero for counts below 2,
matching the Nat truncation). -/
def bwx_material_struct : PSyn MtrlRec := do
  constP (asc "A")
  let size ← varIntP
  let count ← varIntP
  let material ← repeatP (do
    constP (asc "A")
    let msize ← varIntP
    let mcount ← varIntP
    constP (str_value_bytes "MTRL")
    let mname ← bwx_value
    let subs ← repeatP bwx_sub_material_struct (mcount - 2)
    pure (⟨msize, mcount, mname, subs⟩ : MtrlEntry)) count
  pure ⟨size, count, material⟩

/-- Parsed matrix frame of bwx_matrix_struct (marker 0xC4, a timeline tick
and 16 floats as raw bit patterns). -/
structure MatrixFrameRec where
  timeline : Nat
  matrix : List Nat
  deriving DecidableEq

/-- Parsed bwx_matrix_struct. -/
structure MatrixRec where
  size : Nat
  count : Nat
  matrices : List MatrixFrameRec
  deriving DecidableEq

/-- Parser of bwx_matrix_struct: the MATRIX string Const then count - 1
frames. -/
def bwx_matrix_struct : PSyn MatrixRec := do
  constP (asc "A")
  let size ← varIntP
  let count ← varIntP
  constP (str_value_bytes "MATRIX")
  let ms ← repeatP (do
    constP [0xc4]
    let t ← int32ulP
    let m ← repeatP float32P 16
    pure (⟨t, m⟩ : MatrixFrameRec)) (count - 1)
  pure ⟨size, count, ms⟩

/-- Parsed bwx_meshf_struct (a v1 per-frame sub-mesh). -/
structure MeshfRec where
  size : Nat
  count : Nat
  timeline : BwxValue
  vb_size : Nat
  vertex_count : Nat
  vertex_buffer : List BwxValue
  uv_size : Nat
  uv_count : Nat
  uv_buffer : List BwxValue
  deriving DecidableEq

/-- Parser of bwx_meshf_struct. -/
def bwx_meshf_struct : PSyn MeshfRec := do
  constP (asc "A")
  let size ← varIntP
  let count ← varIntP
  constP (str_value_bytes "MESHF")
  let timeline ← bwx_value
  constP (asc "A")
  let vb_size ← varIntP
  let vertex_count ← varIntP
  let vertex_buffer ← repeatP bwx_value vertex_count
  constP (asc "A")
  let uv_size ← varIntP
  let uv_count ← varIntP
  let uv_buffer ← repeatP bwx_value uv_count
  pure ⟨size, count, timeline, vb_size, vertex_count, vertex_buffer,
    uv_size, uv_count, uv_buffer⟩

/-- Parsed bwx_mesh_struct (a v1 mesh: frames, sub-material ids, index
values and four trailing unknowns).  Duplicated construct field names
("A", "size") keep one typed slot per occurrence here. -/
structure MeshRec where
  size : Nat
  count : Nat
  sub_size : Nat
  sub_count : Nat
  sub_mesh : List MeshfRec
  sub_material_size : Nat
  sub_material_count : Nat
  sub_material : List BwxValue
  ib_size : Nat
  index_count : Nat
  index_buffer : List BwxValue
  unknown1 : BwxValue
  unknown2 : BwxValue
  unknown3 : BwxValue
  unknown_20 : BwxValue
  deriving DecidableEq

/-- Parser of bwx_mesh_struct. -/
def bwx_mesh_struct : PSyn MeshRec := do
  constP (asc "A")
  let size ← varIntP
  let count ← varIntP
  constP (str_value_bytes "MESH")
  constP (asc "A")
  let sub_size ← varIntP
  let sub_count ← varIntP
  let sub_mesh ← repeatP bwx_meshf_struct sub_count
  constP (asc "A")
  let sub_material_size ← varIntP
  let sub_material_count ← varIntP
  let sub_material ← repeatP bwx_value sub_material_count
  constP (asc "A")
  let ib_size ← varIntP
  let index_count ← varIntP
  let index_buffer ← repeatP bwx_value index_count
  let unknown1 ← bwx_value
  let unknown2 ← bwx_value
  let unknown3 ← bwx_value
  let unknown_20 ← bwx_value
  pure ⟨size, count, sub_size, sub_count, sub_mesh, sub_material_size,
    sub_material_count, sub_material, ib_size, index_count, index_buffer,
    unknown1, unknown2, unknown3, unknown_20⟩

/-- Parsed entry of bwx_object_struct's object Array (a v1 object). -/
structure ObjEntry where
  size : Nat
  count : Nat
  name : BwxValue
  unknown1 : BwxValue
  material : BwxValue
  unknown2 : BwxValue
  unknown3 : BwxValue
  direction : Nat
  mesh_size : Nat
  mesh_count : Nat
  mesh : List MeshRec
  matrix_size : Nat
  matrix_count : Nat
  matrix : List MatrixRec
  sfx : BwxValue
  whatisthis : Option BwxValue
  deriving DecidableEq

/-- Parsed bwx_object_struct. -/
structure ObjRec where
  size : Nat
  count : Nat
  object : List ObjEntry
  deriving DecidableEq

/-- Parser of bwx_object_struct. -/
def bwx_object_struct : PSyn ObjRec := do
  constP (asc "A")
  let size ← varIntP
  let count ← varIntP
  let object ← repeatP (do
    constP (asc "A")
    let osize ← varIntP
    let ocount ← varIntP
    constP (str_value_bytes "OBJ2")
    let name ← bwx_value
    let unknown1 ← bwx_value
    let material ← bwx_value
    let unknown2 ← bwx_value
    let unknown3 ← bwx_value
    let direction ← bwx_direction
    constP (asc "A")
    let mesh_size ← varIntP
    let mesh_count ← varIntP
    let mesh ← repeatP bwx_mesh_struct mesh_count
    constP (asc "A")
    let matrix_size ← varIntP
    let matrix_count ← varIntP
    let matrix ← repeatP bwx_matrix_struct matrix_count
    let sfx ← bwx_value
    let whatisthis ←
      if ocount > 10 then do
        let w ← bwx_value
        pure (some w)
      else pure Option.none
    pure (⟨osize, ocount, name, unknown1, material, unknown2, unknown3,
      direction, mesh_size, mesh_count, mesh, matrix_size, matrix_count,
      matrix, sfx, whatisthis⟩ : ObjEntry)) count
  pure ⟨size, count, object⟩

/-- Parsed matrix frame of bwx_matrix2_struct (marker 0xE0, 16 matrix
floats plus 7 unknown floats). -/
structure Matrix2FrameRec where
  timeline : Nat
  matrix : List Nat
  unknown : List Nat
  deriving DecidableEq

/-- Parsed bwx_matrix2_struct. -/
structure Matrix2Rec where
  size : Nat
  count : Nat
  matrices : List Matrix2FrameRec
  deriving DecidableEq

/-- Parser of bwx_matrix2_struct. -/
def bwx_matrix2_struct : PSyn Matrix2Rec := do
  constP (asc "A")
  let size ← varIntP
  let count ← varIntP
  constP (str_value_bytes "MATRIX")
  let ms ← repeatP (do
    constP [0xe0]
    let t ← int32ulP
    let m ← repeatP float32P 16
    let u ← repeatP float32P 7
    pure (⟨t, m, u⟩ : Matrix2FrameRec)) (count - 1)
  pure ⟨size, count, ms⟩

/-- Parsed bwx_dx_meshf_struct (a v2 per-frame sub-mesh: every payload is a
tagged value, the vertex buffer an opaque blob reinterpreted by the
importer). -/
structure DxMeshfRec where
  size : Nat
  count : Nat
  timeline : BwxValue
  vertex_type : BwxValue
  vertex_count : BwxValue
  vertex_size : BwxValue
  vertex_buffer : BwxValue
  deriving DecidableEq

/-- Parser of bwx_dx_meshf_struct. -/
def bwx_dx_meshf_struct : PSyn DxMeshfRec := do
  constP (asc "A")
  let size ← varIntP
  let count ← varIntP
  constP (str_value_bytes "DXMESHF")
  let timeline ← bwx_value
  let vertex_type ← bwx_value
  let vertex_count ← bwx_value
  let vertex_size ← bwx_value
  let vertex_buffer ← bwx_value
  pure ⟨size, count, timeline, vertex_type, vertex_count, vertex_size,
    vertex_buffer⟩

/-- Parsed bwx_dx_mesh_struct (a v2 mesh). -/
structure DxMeshRec where
  size : Nat
  count : Nat
  sub_material : BwxValue
  sub_size : Nat
  sub_count : Nat
  sub_mesh : List DxMeshfRec
  index_count : BwxValue
  index_buffer : BwxValue
  deriving DecidableEq

/-- Parser of bwx_dx_mesh_struct. -/
def bwx_dx_mesh_struct : PSyn DxMeshRec := do
  constP (asc "A")
  let size ← varIntP
  let count ← varIntP
  constP (str_value_bytes "DXMESH")
  let sub_material ← bwx_value
  constP (asc "A")
  let sub_size ← varIntP
  let sub_count ← varIntP
  let sub_mesh ← repeatP bwx_dx_meshf_struct sub_count
  let index_count ← bwx_value
  let index_buffer ← bwx_value
  pure ⟨size, count, sub_material, sub_size, sub_count, sub_mesh,
    index_count, index_buffer⟩

/-- Parsed entry of bwx_dx_object_struct's object Array (a v2 object). -/
structure DxObjEntry where
  size : Nat
  count : Nat
  name : BwxValue
  unknown1 : BwxValue
  material : BwxValue
  unknown2 : BwxValue
  unknown3 : BwxValue
  direction : Nat
  mesh_size : Nat
  mesh_count : Nat
  mesh : List DxMeshRec
  matrix_size : Nat
  matrix_count : Nat
  matrix : List Matrix2Rec
  sfx : BwxValue
  whatisthis : Option BwxValue
  deriving DecidableEq

/-- Parsed bwx_dx_object_struct. -/
structure DxObjRec where
  size : Nat
  count : Nat
  object : List DxObjEntry
  deriving DecidableEq

/-- Parser of bwx_dx_object_struct. -/
def bwx_dx_object_struct : PSyn DxObjRec := do
  constP (asc "A")
  let size ← varIntP
  let count ← varIntP
  let object ← repeatP (do
    constP (asc "A")
    let osize ← varIntP
    let ocount ← varIntP
    constP (str_value_bytes "DXOBJ")
    let name ← bwx_value
    let unknown1 ← bwx_value
    let material ← bwx_value
    let unknown2 ← bwx_value
    let unknown3 ← bwx_value
    let direction ← bwx_direction
    constP (asc "A")
    let mesh_size ← varIntP
    let mesh_count ← varIntP
    let mesh ← repeatP bwx_dx_mesh_struct mesh_count
    constP (asc "A")
    let matrix_size ← varIntP
    let matrix_count ← varIntP
    let matrix ← repeatP bwx_matrix2_struct matrix_count
    let sfx ← bwx_value
    let whatisthis ←
      if ocount > 10 then do
        let w ← bwx_value
        pure (some w)
      else pure Option.none
    pure (⟨osize, ocount, name, unknown1, material, unknown2, unknown3,
      direction, mesh_size, mesh_count, mesh, matrix_size, matrix_count,
      matrix, sfx, whatisthis⟩ : DxObjEntry)) count
  pure ⟨size, count, object⟩

/-- Parsed bwx_camera_matrix_struct frame. -/
structure CamFrameRec where
  size : Nat
  timeline : Nat
  camera : List Nat
  target : List Nat
  unknown1 : List Nat
  unknown2 : List Nat
  deriving DecidableEq

/-- Parser of bwx_camera_matrix_struct. -/
def bwx_camera_matrix_struct : PSyn CamFrameRec := do
  constP (asc "B")
  let size ← varIntP
  let t ← int32ulP
  let cam ← repeatP float32P 16
  let tgt ← repeatP float32P 16
  let u1 ← repeatP float32P 3
  let u2 ← repeatP float32P 3
  pure ⟨size, t, cam, tgt, u1, u2⟩

/-- Parsed entry of bwx_camera_struct's camera Array. -/
structure CamEntry where
  size : Nat
  cam_count : Nat
  name : BwxValue
  unknown : BwxValue
  matrix : List CamFrameRec
  deriving DecidableEq

/-- Parsed bwx_camera_struct. -/
structure CamRec where
  size : Nat
  count : Nat
  camera : List CamEntry
  deriving DecidableEq

/-- Parser of bwx_camera_struct: each camera holds the CAM string Const,
a name, the CAMR magic Const, one unknown value and cam_count - 4 frames. -/
def bwx_camera_struct : PSyn CamRec := do
  constP (asc "A")
  let size ← varIntP
  let count ← varIntP
  let cams ← repeatP (do
    constP (asc "A")
    let csize ← varIntP
    let cam_count ← varIntP
    constP (str_value_bytes "CAM")
    let name ← bwx_value
    constP (i32_value_bytes 0x43414d52)
    let unknown ← bwx_value
    let mats ← repeatP bwx_camera_matrix_struct (cam_count - 4)
    pure (⟨csize, cam_count, name, unknown, mats⟩ : CamEntry)) count
  pure ⟨size, count, cams⟩

/-! ## Block container (bwx_main_block_struct and bwx_struct) -/

/-- Body of a named block, one alternative per Switch case of
bwx_main_block_struct (unnamed cases fall back to a generic value). -/
inductive BlockData where
  | zero
  | head (h : HeadRec)
  | mtrl (m : MtrlRec)
  | obj (o : ObjRec)
  | dxobj (o : DxObjRec)
  | cam (c : CamRec)
  | value (v : BwxValue)
  deriving DecidableEq

/-- Parsed bwx_main_block_struct: a varint-length-prefixed NUL-terminated
name plus the name-dispatched body. -/
structure BlockRec where
  name : List Nat
  data : BlockData
  deriving DecidableEq

/-- Parser of bwx_main_block_struct.  The Switch cases follow the source
dictionary; LIGHT, SOUND, BONE and CHART share the generic bwx_value case,
as does the explicit default. -/
def bwx_main_block_struct : PSyn BlockRec := do
  let name ← prefixedCStringP
  let data ←
    if name = asc "0" then do
      bwx_0_struct
      pure BlockData.zero
    else if name = asc "HEAD" then do
      let h ← bwx_header_struct
      pure (BlockData.head h)
    else if name = asc "MTRL" then do
      let m ← bwx_material_struct
      pure (BlockData.mtrl m)
    else if name = asc "OBJ2" then do
      let o ← bwx_object_struct
      pure (BlockData.obj o)
    else if name = asc "OBJECT" then do
      let o ← bwx_object_struct
      pure (BlockData.obj o)
    else if name = asc "CAM" then do
      let c ← bwx_camera_struct
      pure (BlockData.cam c)
    else if name = asc "LIGHT" then do
      let v ← bwx_value
      pure (BlockData.value v)
    else if name = asc "SOUND" then do
      let v ← bwx_value
      pure (BlockData.value v)
    else if name = asc "BONE" then do
      let v ← bwx_value
      pure (BlockData.value v)
    else if name = asc "CHART" then do
      let v ← bwx_value
      pure (BlockData.value v)
    else if name = asc "DXOBJ" then do
      let o ← bwx_dx_object_struct
      pure (BlockData.dxobj o)
    else if name = asc "SPOB" then do
      let o ← bwx_dx_object_struct
      pure (BlockData.dxobj o)
    else do
      let v ← bwx_value
      pure (BlockData.value v)
  pure ⟨name, data⟩

/-- Parsed bwx_struct (the whole file). -/
structure BwxFile where
  content_size : Nat
  block_count : Nat
  blocks : List BlockRec
  deriving DecidableEq

/-- Middle of the file structure between the two framing signatures:
content size, block count and exactly block_count named blocks. -/
def bwx_body : PSyn BwxFile := do
  let cs ← varIntP
  let bc ← varIntP
  let blocks ← repeatP bwx_main_block_struct bc
  pure ⟨cs, bc, blocks⟩

/-- Parser of bwx_struct: the BWXF signature Const, the body, the FXWB
ending Const. -/
def bwx_struct : PSyn BwxFile := do
  constP (asc "BWXF")
  let f ← bwx_body
  constP (asc "FXWB")
  pure f

/-! ## Importer layer (bwx_io.py)

BWXImporter._parse and helpers, embedded over the parsed records.  Python
attribute access on a construct Container is a dictionary lookup over the
declared field names; obj_direction_is_mshx performs such a lookup inside a
try/except, so the embedding gives each container kind an explicit
association list of its field names. -/

/-- Helper get_block of bwx_construct.py: the data of the first block with
the given name, None when there is none. -/
def get_block (blocks : List BlockRec) (name : List Nat) : Option BlockData :=
  match blocks.filter (fun b => b.name == name) with
  | [] => none
  | b :: _ => some b.data

/-- Modelled from the spec: the str() rendering of the parsed version Enum
of the HEAD block, whose Enum combinator lives in the vendored construct
library.  The two mapped constants render as the names SLv1 / SLv2 (the
mapping itself is declared in src, bwx_header_struct); every other 16-bit
value renders as its decimal digits (an EnumInteger), which never compare
equal to either name — the spec's any-other-value-is-UnsupportedVersion
rule (section 4.4). -/
inductive VersionTag where
  | slv1
  | slv2
  | other (n : Nat)
  deriving DecidableEq

/-- Version rendering used by BWXImporter._parse. -/
def versionTag (n : Nat) : VersionTag :=
  if n = 0x0500 then .slv1 else if n = 0x0602 then .slv2 else .other n

/-- Importer-level failures of BWXImporter._parse (each becomes an
ImportError in the source). -/
inductive ImpErr where
  | parseFail (e : PErr)
  | missingHead
  | unsupportedVersion
  deriving DecidableEq

/-- Version-selection core of BWXImporter._parse: look up the HEAD block,
then compare str(head.version) against SLv1 and SLv2; anything else raises
the unsupported-version ImportError.  A block named HEAD always parses with
bwx_header_struct, so the non-header fallback arm is unreachable; it is
mapped to the missing-HEAD error. -/
def importer_select_version (blocks : List BlockRec) : Except ImpErr Nat :=
  match get_block blocks (asc "HEAD") with
  | none => .error .missingHead
  | some (BlockData.head h) =>
    match versionTag h.version with
    | .slv1 => .ok 1
    | .slv2 => .ok 2
    | .other _ => .error .unsupportedVersion
  | some _ => .error .missingHead

/-- Block consulted by BWXImporter._parse_objects: OBJ2 when the selected
dialect is 1, SPOB otherwise. -/
def parse_objects_block (sl_version : Nat) (blocks : List BlockRec) : Option BlockData :=
  if sl_version = 1 then get_block blocks (asc "OBJ2")
  else get_block blocks (asc "SPOB")

/-- Front end of BWXImporter._parse: parse the container, require a HEAD
block, select the dialect.  The subsequent section passes
(_parse_materials / _parse_objects / _parse_cameras) consume the same
parsed file; the claims below address them through their own embeddings. -/
def importer_parse (bs : List Nat) : Except ImpErr (Nat × BwxFile) :=
  match run bwx_struct bs with
  | .err e => .error (.parseFail e)
  | .ok f _ =>
    match importer_select_version f.blocks with
    | .error e => .error e
    | .ok v => .ok (v, f)

/-- Value a container field can present to obj_direction_is_mshx: a parsed
bwx_direction sub-container carrying its 32-bit enum value, or any other
field (whose inner .value lookup would not produce a direction enum). -/
inductive Attr where
  | direction (v : Nat)
  | other
  deriving DecidableEq

/-- Constant DIRECTION_MSHX of constants.py. -/
def DIRECTION_MSHX : Nat := 0x4d534858

/-- Constant DIRECTION_MNHX of constants.py. -/
def DIRECTION_MNHX : Nat := 0x4d4e4858

/-- Function obj_direction_is_mshx of bwx_io.py: return
obj.direction.value == EnumIntegerString(MSHX) with AttributeError and
KeyError caught as False.  The attribute access is the association-list
lookup; a missing direction key is the caught AttributeError.  The enum
comparison is true exactly for the raw MSHX constant (any unmapped raw
value parses as an EnumInteger, never equal to the MSHX string). -/
def obj_direction_is_mshx (c : List (String × Attr)) : Bool :=
  match c.lookup "direction" with
  | some (Attr.direction v) => v == DIRECTION_MSHX
  | some Attr.other => false
  | none => false

/-- Field names of a parsed bwx_mesh_struct Container, with the values
collapsed to Attr.other except for direction-typed fields (there are none:
bwx_mesh_struct declares no direction field).  Duplicate construct names
("A", "size") collapse to single dictionary keys. -/
def MeshRec.attrs (_ : MeshRec) : List (String × Attr) :=
  [("A", .other), ("size", .other), ("count", .other), ("MESH", .other),
   ("sub_size", .other), ("sub_count", .other), ("sub_mesh", .other),
   ("sub_material_size", .other), ("sub_material_count", .other),
   ("sub_material", .other), ("index_count", .other),
   ("index_buffer", .other), ("unknown1", .other), ("unknown2", .other),
   ("unknown3", .other), ("unknown_20", .other)]

/-- Field names of a parsed bwx_dx_mesh_struct Container; again no
direction field is declared. -/
def DxMeshRec.attrs (_ : DxMeshRec) : List (String × Attr) :=
  [("A", .other), ("size", .other), ("count", .other), ("DXMESH", .other),
   ("sub_material", .other), ("sub_size", .other), ("sub_count", .other),
   ("sub_mesh", .other), ("index_count", .other), ("index_buffer", .other)]

/-- Field names of a parsed v1 object Container (an entry of
bwx_object_struct's object Array); this one does declare direction. -/
def ObjEntry.attrs (o : ObjEntry) : List (String × Attr) :=
  [("A", .other), ("size", .other), ("count", .other), ("OBJ2", .other),
   ("name", .other), ("unknown1", .other), ("material", .other),
   ("unknown2", .other), ("unknown3", .other),
   ("direction", .direction o.direction), ("mesh_size", .other),
   ("mesh_count", .other), ("mesh", .other), ("matrix_size", .other),
   ("matrix_count", .other), ("matrix", .other), ("sfx", .other),
   ("whatisthis", .other)]

/-- Field names of a parsed v2 object Container (an entry of
bwx_dx_object_struct's object Array). -/
def DxObjEntry.attrs (o : DxObjEntry) : List (String × Attr) :=
  [("A", .other), ("size", .other), ("count", .other), ("DXOBJ", .other),
   ("name", .other), ("unknown1", .other), ("material", .other),
   ("unknown2", .other), ("unknown3", .other),
   ("direction", .direction o.direction), ("mesh_size", .other),
   ("mesh_count", .other), ("mesh", .other), ("matrix_size", .other),
   ("matrix_count", .other), ("matrix", .other), ("sfx", .other),
   ("whatisthis", .other)]

/-- Consecutive triples of a list, dropping a trailing partial group: the
zip(indices, indices, indices) over one shared iterator in
_parse_v1_mesh / _parse_v2_mesh. -/
def chunk3 {α : Type} : List α → List (α × α × α)
  | a :: b :: c :: rest => (a, b, c) :: chunk3 rest
  | _ => []

/-- Reinterpretation Array(n, Float32l).parse(v.value) applied to a decoded
value: defined when the value is a byte blob long enough, yielding the raw
bit patterns. -/
def parse_f32_list (n : Nat) (v : BVal) : Option (List Nat) :=
  match v with
  | BVal.bytes bs =>
    match run (repeatP float32P n) bs with
    | .ok l _ => some l
    | .err _ => none
  | _ => none

/-- Embedded MeshData as produced by BWXImporter._parse_v1_mesh (normals
are never produced for v1). -/
structure MeshDataE where
  timeline : BVal
  sub_material : BVal
  positions : List (Option (List Nat))
  tex_coords : List (Option (List Nat))
  faces : List (BVal × BVal × BVal)
  deriving DecidableEq

/-- BWXImporter._parse_v1_mesh: the sub-material is the first entry of the
mesh record's sub_material array (an IndexError, hence None here, when
that array is empty), positions and UVs reinterpret the raw blobs, the
index values are grouped in consecutive triples, and the triple is swapped
when obj_direction_is_mshx holds of the mesh record passed in. -/
def parse_v1_mesh (m : MeshRec) (sm : MeshfRec) : Option MeshDataE :=
  match m.sub_material with
  | [] => none
  | sm0 :: _ =>
    let indices := m.index_buffer.map (fun i => i.value)
    let flip := obj_direction_is_mshx m.attrs
    let faces := (chunk3 indices).map
      (fun t => if flip then (t.1, t.2.2, t.2.1) else t)
    some { timeline := sm.timeline.value
           sub_material := sm0.value
           positions := sm.vertex_buffer.map (fun v => parse_f32_list 3 v.value)
           tex_coords := sm.uv_buffer.map (fun u => parse_f32_list 2 u.value)
           faces := faces }

/-! ## V2 vertex records over exact scalars

BWXImporter._parse_v2_mesh reinterprets the opaque vertex blob as
vertex_count records of bwx_dx_vertex_struct (3 + 3 + 2 little-endian
floats).  The IEEE-754 scalar decoding is abstracted: the blob appears as
its list of decoded scalars, carried as exact rationals, and the record
chunking, dummy-vertex stripping and UV V-flip follow the source. -/

/-- Record layout of bwx_dx_vertex_struct over decoded scalars. -/
structure DxVertexQ where
  positions : ℚ × ℚ × ℚ
  normals : ℚ × ℚ × ℚ
  tex_coords : ℚ × ℚ
  deriving DecidableEq

/-- One bwx_dx_vertex_struct record from the scalar stream. -/
def bwx_dx_vertex_read : List ℚ → Option (DxVertexQ × List ℚ)
  | px :: py :: pz :: nx :: ny :: nz :: u :: v :: rest =>
    some (⟨(px, py, pz), (nx, ny, nz), (u, v)⟩, rest)
  | _ => none

/-- Array(count, bwx_dx_vertex_struct).parse: exactly count records, extra
scalars ignored, a short stream failing. -/
def parse_dx_vertices : Nat → List ℚ → Option (List DxVertexQ)
  | 0, _ => some []
  | n + 1, s =>
    match bwx_dx_vertex_read s with
    | none => none
    | some (v, rest) => (parse_dx_vertices n rest).map (fun vs => v :: vs)

/-- Vertex part of BWXImporter._parse_v2_mesh: parse vertex_count records,
strip the two trailing dummy vertices whenever more than two records were
declared, un-flip the UV V-coordinate.  Returns (positions, normals,
tex_coords). -/
def parse_v2_mesh_vertices (vertex_count : Nat) (scalars : List ℚ) :
    Option (List (ℚ × ℚ × ℚ) × List (ℚ × ℚ × ℚ) × List (ℚ × ℚ)) :=
  match parse_dx_vertices vertex_count scalars with
  | none => none
  | some vb =>
    let actual := if vb.length > 2 then vb.length - 2 else vb.length
    some ((vb.take actual).map (fun v => v.positions),
          (vb.take actual).map (fun v => v.normals),
          (vb.take actual).map (fun v => (v.tex_coords.1, 1 - v.tex_coords.2)))

/-! ## Writer layer (bwx_writer.py)

The writer builds bytes directly.  String arguments appear as their encoded
bytes, floats as their IEEE-754 bit patterns (0.0 has pattern 0), colors as
the packed integers _color_to_int produces. -/

/-- BWXWriter._build_prefixed_string: varint length of the NUL-terminated
encoding, then the bytes and the NUL. -/
def build_prefixed_string (s : List Nat) : List Nat :=
  buildVarIntNat (s.length + 1) ++ (s ++ [0])

/-- BWXWriter._build_bwx_value_int: tag 0x49 plus struct.pack with format
<I (callers pass 32-bit values). -/
def build_bwx_value_int (v : Nat) : List Nat := 0x49 :: le4 v

/-- BWXWriter._build_bwx_value_float: tag 0x46 plus the 4 bytes of the
float's bit pattern. -/
def build_bwx_value_float (bits : Nat) : List Nat := 0x46 :: le4 bits

/-- BWXWriter._build_bwx_value_string: tag 0x53, varint length of the
NUL-terminated encoding, bytes, NUL. -/
def build_bwx_value_string (s : List Nat) : List Nat :=
  0x53 :: (buildVarIntNat (s.length + 1) ++ (s ++ [0]))

/-- BWXWriter._build_bwx_value_data: tag 0x42, varint byte length, raw
bytes. -/
def build_bwx_value_data (d : List Nat) : List Nat :=
  0x42 :: (buildVarIntNat d.length ++ d)

/-- BWXWriter._build_bwx_value_compact_int: the single byte itself below
32, a U8 (0x59) through 255, a U16 (0x57) through 65535, otherwise an I32
(0x49); values struct.pack with format <I rejects (negative or at least
2^32) raise. -/
def build_bwx_value_compact_int (v : Int) : Except BuildErr (List Nat) :=
  if 0 ≤ v ∧ v < 32 then .ok [v.toNat]
  else if 0 ≤ v ∧ v ≤ 255 then .ok [0x59, v.toNat]
  else if 0 ≤ v ∧ v ≤ 65535 then .ok (0x57 :: le2 v.toNat)
  else if 0 ≤ v ∧ v < 2 ^ 32 then .ok (0x49 :: le4 v.toNat)
  else .error .valueTooLarge

/-- Writer-side sub-material input (SubMaterialData after _color_to_int,
with the highlight tuple as a list of float bit patterns and the texture
path already reduced to its filename bytes). -/
structure SubMtrlW where
  diffuse : Nat
  ambient : Nat
  specular : Nat
  highlight : List Nat
  texture_path : Option (List Nat)
  deriving DecidableEq

/-- BWXWriter._build_texture: TEX string value, a zero int value, the
filename string value, wrapped as A + varint(len + 10) + varint(3). -/
def build_texture (filename : List Nat) : List Nat :=
  let inner := build_bwx_value_string (asc "TEX") ++ build_bwx_value_int 0
    ++ build_bwx_value_string filename
  65 :: (buildVarIntNat (inner.length + 10) ++ (buildVarIntNat 3 ++ inner))

/-- Bytes that follow the count field in BWXWriter._build_sub_material
(the local bytearray named inner there): SUBMTRL string value, three color
ints, two floats (a 0.0 and the first highlight component, 0.0 when the
tuple is empty), two zero ints, an optional texture record. -/
def build_sub_material_inner (sm : SubMtrlW) : List Nat :=
  build_bwx_value_string (asc "SUBMTRL")
    ++ build_bwx_value_int sm.diffuse
    ++ build_bwx_value_int sm.ambient
    ++ build_bwx_value_int sm.specular
    ++ build_bwx_value_float 0
    ++ build_bwx_value_float (sm.highlight.headD 0)
    ++ build_bwx_value_int 0
    ++ build_bwx_value_int 0
    ++ (match sm.texture_path with
        | some p => build_texture p
        | none => [])

/-- Field count BWXWriter._build_sub_material declares: 8, or 9 with a
texture. -/
def build_sub_material_count (sm : SubMtrlW) : Nat :=
  match sm.texture_path with
  | some _ => 9
  | none => 8

/-- BWXWriter._build_sub_material: the inner bytes wrapped as
A + varint(len(inner) + 10) + varint(count) + inner. -/
def build_sub_material (sm : SubMtrlW) : List Nat :=
  65 :: (buildVarIntNat ((build_sub_material_inner sm).length + 10)
    ++ (buildVarIntNat (build_sub_material_count sm) ++ build_sub_material_inner sm))

/-- Writer-side material input. -/
structure MaterialW where
  name : List Nat
  sub_materials : List SubMtrlW
  deriving DecidableEq

/-- BWXWriter._build_material: MTRL string value, the name, the
sub-materials, wrapped as A + varint(len + 10) + varint(subs + 2). -/
def build_material (mat : MaterialW) : List Nat :=
  let content := build_bwx_value_string (asc "MTRL")
    ++ build_bwx_value_string mat.name
    ++ (mat.sub_materials.map build_sub_material).flatten
  65 :: (buildVarIntNat (content.length + 10)
    ++ (buildVarIntNat (mat.sub_materials.length + 2) ++ content))

/-- Concatenated material entries of BWXWriter._build_mtrl_block (the
local bytearray named mat_array there). -/
def build_mtrl_mat_array (materials : List MaterialW) : List Nat :=
  (materials.map build_material).flatten

/-- Outer Array payload of BWXWriter._build_mtrl_block:
A + varint(len(mat_array) + 10) + varint(material count) + mat_array. -/
def build_mtrl_outer (materials : List MaterialW) : List Nat :=
  65 :: (buildVarIntNat ((build_mtrl_mat_array materials).length + 10)
    ++ (buildVarIntNat materials.length ++ build_mtrl_mat_array materials))

/-- BWXWriter._build_mtrl_block: the block name, then the outer payload. -/
def build_mtrl_block (materials : List MaterialW) : List Nat :=
  build_prefixed_string (asc "MTRL") ++ build_mtrl_outer materials

/-- Writer-side mesh frame input for the v2 vertex buffer (MeshData with
exact scalars; every entry of normals and tex_coords is a proper non-empty
tuple, so the Python truthiness tests reduce to the index bounds). -/
structure MeshW where
  timeline : Nat
  positions : List (ℚ × ℚ × ℚ)
  normals : List (ℚ × ℚ × ℚ)
  tex_coords : List (ℚ × ℚ)
  deriving DecidableEq

/-- BWXWriter._build_v2_vertex_buffer: per vertex the position, the normal
(default (0,0,1) past the end of normals), the UV with V re-flipped
(default (0,0) past the end of tex_coords), then two all-zero 8-float
dummy vertices (EXTRA_VERTICES_SLV2 = 2). -/
def build_v2_vertex_buffer (m : MeshW) : List ℚ :=
  ((List.range m.positions.length).map (fun i =>
    let p := m.positions.getD i (0, 0, 0)
    let n := if i < m.normals.length then m.normals.getD i (0, 0, 1) else (0, 0, 1)
    let uv := if i < m.tex_coords.length then
        (let t := m.tex_coords.getD i (0, 0); (t.1, 1 - t.2))
      else ((0 : ℚ), (0 : ℚ))
    [p.1, p.2.1, p.2.2, n.1, n.2.1, n.2.2, uv.1, uv.2])).flatten
  ++ List.replicate 16 (0 : ℚ)

/-- Vertex count BWXWriter._build_v2_mesh_frame declares for a frame:
len(mesh.positions) + EXTRA_VERTICES_SLV2. -/
def build_v2_vertex_count (m : MeshW) : Nat := m.positions.length + 2

/-- Leading A + size + count of an emitted Array payload, decoded: the tag
byte must be the A marker, then two varints, then the trailing bytes. -/
def arrayHeaderVals (bs : List Nat) : Option (Nat × Nat × List Nat) :=
  match bs with
  | [] => none
  | b :: rest =>
    if b = 65 then
      match packedIntParseAux rest with
      | some (acc1, r1) =>
        match packedIntParseAux r1 with
        | some (acc2, r2) => some (packedValue acc1, packedValue acc2, r2)
        | none => none
      | none => none
    else none

/-! ## Computation lemmas for the interpreter -/

theorem run_bindP_ok {α β : Type} (p : PSyn α) (f : α → PSyn β) (s : List Nat)
    (a : α) (s1 : List Nat) (h : run p s = .ok a s1) :
    run (PSyn.bindP p f) s = run (f a) s1 := by
  simp [run, h]

theorem run_bindP_err {α β : Type} (p : PSyn α) (f : α → PSyn β) (s : List Nat)
    (e : PErr) (h : run p s = .err e) :
    run (PSyn.bindP p f) s = .err e := by
  simp [run, h]

theorem run_readBytesP_inv (n : Nat) (s bs r : List Nat)
    (h : run (PSyn.readBytesP n) s = .ok bs r) :
    bs = s.take n ∧ r = s.drop n ∧ n ≤ s.length := by
  revert h
  simp only [run]
  split
  next hle =>
    intro h
    cases h
    exact ⟨rfl, rfl, hle⟩
  next =>
    intro h
    cases h

/-- Successful Const: the stream starts with the literal. -/
theorem run_constP_ok (lit t : List Nat) : run (constP lit) (lit ++ t) = .ok () t := by
  have h1 : run (PSyn.readBytesP lit.length) (lit ++ t) = .ok lit t := by
    simp only [run]
    rw [if_pos (by simp), List.take_left, List.drop_left]
  rw [constP, run_bindP_ok _ _ _ _ _ h1, if_pos rfl]
  rfl

/-- Failing Const: a same-length but different chunk in front. -/
theorem run_constP_mismatch (lit s t : List Nat) (hlen : s.length = lit.length)
    (hne : s ≠ lit) : run (constP lit) (s ++ t) = .err .constMismatch := by
  have h1 : run (PSyn.readBytesP lit.length) (s ++ t) = .ok s t := by
    simp only [run]
    rw [if_pos (by simp; omega), ← hlen, List.take_left, List.drop_left]
  rw [constP, run_bindP_ok _ _ _ _ _ h1, if_neg hne]
  rfl

/-- Successful Const splits the stream after the literal. -/
theorem run_constP_inv (lit s r : List Nat) (a : Unit)
    (h : run (constP lit) s = .ok a r) : s = lit ++ r := by
  rw [constP] at h
  cases hres : run (PSyn.readBytesP lit.length) s with
  | err e => rw [run_bindP_err _ _ _ _ hres] at h; cases h
  | ok got s1 =>
    rw [run_bindP_ok _ _ _ _ _ hres] at h
    obtain ⟨hbs, hr, hle⟩ := run_readBytesP_inv _ _ _ _ hres
    by_cases hgot : got = lit
    · rw [if_pos hgot] at h
      simp only [run, PRes.ok.injEq] at h
      rw [← hgot, hbs, ← h.2, hr, List.take_append_drop]
    · rw [if_neg hgot] at h
      simp [run] at h

/-- VarInt field round trip at the value level. -/
theorem run_varIntP_build (v : Nat) (t : List Nat) :
    run varIntP (buildVarIntNat v ++ t) = .ok v t := by
  show run (PSyn.bindP PSyn.varintP _) _ = _
  rw [run_bindP_ok _ _ _ _ _ (run_varintP_build v t)]
  rfl

/-- Boolean well-formedness of a varint encoding: non-empty, every byte
but the last with the high bit set, the last with it clear. -/
def isVarIntEncB : List Nat → Bool
  | [] => false
  | [b] => b &&& 128 = 0
  | b :: rest => (decide (b &&& 128 ≠ 0)) && isVarIntEncB rest

/-- Parsing any well-formed varint encoding consumes exactly it. -/
theorem packedIntParseAux_of_enc :
    ∀ bs t, isVarIntEncB bs = true →
      packedIntParseAux (bs ++ t) = some (bs.map (fun b => b &&& 127), t) := by
  intro bs
  induction bs with
  | nil => intro t h; simp [isVarIntEncB] at h
  | cons b rest ih =>
    intro t h
    cases rest with
    | nil =>
      simp only [isVarIntEncB, decide_eq_true_eq] at h
      simp [packedIntParseAux, h]
    | cons c rest2 =>
      simp only [isVarIntEncB, Bool.and_eq_true, decide_eq_true_eq] at h
      have hrec := ih t h.2
      rw [List.cons_append, packedIntParseAux, if_neg h.1, hrec]
      simp

theorem run_pureP {α : Type} (a : α) (s : List Nat) :
    run (PSyn.pureP a) s = .ok a s := rfl

theorem psyn_bind_eq {α β : Type} (p : PSyn α) (f : α → PSyn β) :
    Bind.bind p f = PSyn.bindP p f := rfl

theorem psyn_pure_eq {α : Type} (a : α) : (Pure.pure a : PSyn α) = PSyn.pureP a := rfl

/-! ## Claim theorems -/

/-- Claim C8: for every non-negative v, VarInt decode applied to VarInt
encode of v returns the pair (v, byte length of the encoding) and leaves
the rest of the stream untouched; the encoder peels 7-bit groups least
significant first with the continuation bit on all but the final byte, and
the decoder takes the first byte read as the least-significant 7 bits,
stopping at the first byte whose high bit is clear (these algorithms are
the definitions decoded against each other here); encode fails with the
negative-value error for every negative input. -/
theorem claim_C8_varint_round_trip :
    (∀ (v : Nat) (t : List Nat),
      run PSyn.varintP (buildVarIntNat v ++ t) =
        .ok (v, (buildVarIntNat v).length) t)
  ∧ (∀ v : Int, v < 0 → build_varint v = .error .negativeValue) := by
  refine ⟨run_varintP_build, ?_⟩
  intro v hv
  simp [build_varint, hv]

/-- Witness for C8 at concrete inputs: the negative branch at -5, the
round trip at 16384 (a three-byte encoding). -/
theorem claim_C8_witness :
    (((-5 : Int) < 0 ∧ build_varint (-5) = .error .negativeValue)
  ∧ run PSyn.varintP (buildVarIntNat 16384 ++ [9]) = .ok (16384, 3) [9]) := by
  constructor
  · exact ⟨by decide, claim_C8_varint_round_trip.2 (-5) (by decide)⟩
  · have h := claim_C8_varint_round_trip.1 16384 [9]
    have hlen : (buildVarIntNat 16384).length = 3 := by decide
    rw [hlen] at h
    exact h

/-- Claim C7: an Array-tagged payload (bwx_array) consumes exactly
declared_size minus the encoded byte length of the count field as raw data
bytes, for every well-formed encoding (of any byte length, canonical or
not) of the count field. -/
theorem claim_C7_array_data_length
    (s : Nat) (cEnc data t : List Nat)
    (henc : isVarIntEncB cEnc = true)
    (hle : cEnc.length ≤ s)
    (hdata : data.length = s - cEnc.length) :
    run bwx_array (buildVarIntNat s ++ (cEnc ++ (data ++ t))) =
      .ok ⟨s, packedValue (cEnc.map (fun b => b &&& 127)), data⟩ t := by
  unfold bwx_array
  simp only [psyn_bind_eq]
  rw [run_bindP_ok _ _ _ _ _ (run_varIntP_build s (cEnc ++ (data ++ t)))]
  have hc : run PSyn.varintP (cEnc ++ (data ++ t)) =
      .ok (packedValue (cEnc.map (fun b => b &&& 127)), cEnc.length) (data ++ t) := by
    simp only [run, packedIntParseAux_of_enc cEnc (data ++ t) henc]
    simp
  rw [run_bindP_ok _ _ _ _ _ hc]
  simp only [if_pos hle]
  have hr : run (PSyn.readBytesP (s - cEnc.length)) (data ++ t) = .ok data t := by
    simp only [run]
    rw [if_pos (by simp; omega), ← hdata, List.take_left, List.drop_left]
  rw [run_bindP_ok _ _ _ _ _ hr]
  rfl

/-- Witness for C7: size 3 with a two-byte (non-canonical) encoding of
count 1 leaves exactly one data byte. -/
theorem claim_C7_witness :
    isVarIntEncB [129, 0] = true ∧ ([129, 0] : List Nat).length ≤ 3 ∧
    ([99] : List Nat).length = 3 - ([129, 0] : List Nat).length ∧
    run bwx_array (buildVarIntNat 3 ++ ([129, 0] ++ ([99] ++ [7]))) =
      .ok ⟨3, 1, [99]⟩ [7] := by
  refine ⟨by decide, by decide, by decide, ?_⟩
  have h := claim_C7_array_data_length 3 [129, 0] [99] [7] (by decide) (by decide) (by decide)
  have hv : packedValue (([129, 0] : List Nat).map (fun b => b &&& 127)) = 1 := by decide
  rw [hv] at h
  exact h

/-- Tags with a Switch case in bwx_value. -/
def recognizedTags : List Nat := [0x41, 0x42, 0x43, 0x44, 0x46, 0x48, 0x49, 0x53, 0x57, 0x59]

theorem run_readByteP (b : Nat) (t : List Nat) : run readByteP (b :: t) = .ok b t := by
  show run (PSyn.bindP (PSyn.readBytesP 1) _) (b :: t) = _
  rw [run_bindP_ok _ _ _ _ _
    (show run (PSyn.readBytesP 1) (b :: t) = .ok [b] t by simp [run])]
  rfl

/-- Decoding a tagged value whose tag has no Switch case and is not above
0x80: only the tag byte is consumed, the data is Pass (None), the value is
the tag itself below 0x20 and the None data otherwise. -/
theorem run_bwx_value_unknown (t : Nat) (rest : List Nat)
    (hle : t ≤ 0x80) (hnr : t ∉ recognizedTags) :
    run bwx_value (t :: rest) =
      .ok ⟨t, BVal.pnone, if t < 0x20 then BVal.int t else BVal.pnone⟩ rest := by
  simp only [recognizedTags, List.mem_cons, List.not_mem_nil, or_false, not_or] at hnr
  obtain ⟨h41, h42, h43, h44, h46, h48, h49, h53, h57, h59⟩ := hnr
  unfold bwx_value
  simp only [psyn_bind_eq, psyn_pure_eq]
  rw [run_bindP_ok _ _ _ _ _ (run_readByteP t rest)]
  simp only [if_neg (show ¬ t > 0x80 by omega), if_neg h41, if_neg h42,
    if_neg h43, if_neg h44, if_neg h46, if_neg h48, if_neg h49, if_neg h53,
    if_neg h57, if_neg h59]
  rw [run_bindP_ok _ _ _ _ _ (run_pureP BVal.pnone rest)]
  rfl

/-- Decoding a tagged value whose tag is above 0x80: an inline blob of
tag &&& 0x7F bytes. -/
theorem run_bwx_value_blob (t : Nat) (data rest : List Nat)
    (hgt : t > 0x80) (hlen : data.length = t &&& 0x7f) :
    run bwx_value (t :: (data ++ rest)) =
      .ok ⟨t, BVal.bytes data, BVal.bytes data⟩ rest := by
  unfold bwx_value
  simp only [psyn_bind_eq, psyn_pure_eq]
  rw [run_bindP_ok _ _ _ _ _ (run_readByteP t (data ++ rest))]
  simp only [if_pos hgt]
  have hr : run (PSyn.readBytesP (t &&& 0x7f)) (data ++ rest) = .ok data rest := by
    simp only [run]
    rw [if_pos (by simp; omega), ← hlen, List.take_left, List.drop_left]
  rw [run_bindP_ok _ _ _ _ _ hr]
  rw [run_bindP_ok _ _ _ _ _ (run_pureP (BVal.bytes data) rest)]
  simp [run, show ¬ t < 0x20 by omega]

/-- Claim C10: a tag byte below 0x20 decodes by consuming exactly that one
byte and yielding the integer tag itself as the value; the writer relies on
this, encoding a non-negative integer as the single byte itself below 32,
as tag 0x59 plus one byte through 255, as tag 0x57 plus two little-endian
bytes through 65535, and as tag 0x49 plus four little-endian bytes
otherwise (within the 32-bit range struct.pack accepts); a small integer
the writer emits decodes back to the same value. -/
theorem claim_C10_immediate_small_ints :
    (∀ (t : Nat) (rest : List Nat), t < 0x20 →
      run bwx_value (t :: rest) = .ok ⟨t, BVal.pnone, BVal.int t⟩ rest)
  ∧ (∀ v : Int, 0 ≤ v → v < 32 →
      build_bwx_value_compact_int v = .ok [v.toNat])
  ∧ (∀ v : Int, 32 ≤ v → v ≤ 255 →
      build_bwx_value_compact_int v = .ok [0x59, v.toNat])
  ∧ (∀ v : Int, 256 ≤ v → v ≤ 65535 →
      build_bwx_value_compact_int v = .ok (0x57 :: le2 v.toNat))
  ∧ (∀ v : Int, 65535 < v → v < 2 ^ 32 →
      build_bwx_value_compact_int v = .ok (0x49 :: le4 v.toNat))
  ∧ (∀ (v : Nat) (rest : List Nat), v < 32 →
      run bwx_value (v :: rest) = .ok ⟨v, BVal.pnone, BVal.int v⟩ rest) := by
  have hdec : ∀ (t : Nat) (rest : List Nat), t < 0x20 →
      run bwx_value (t :: rest) = .ok ⟨t, BVal.pnone, BVal.int t⟩ rest := by
    intro t rest ht
    have h := run_bwx_value_unknown t rest (by omega)
      (by simp [recognizedTags]; omega)
    rw [if_pos ht] at h
    exact h
  refine ⟨hdec, ?_, ?_, ?_, ?_, hdec⟩
  · intro v h0 h32
    rw [build_bwx_value_compact_int, if_pos ⟨h0, h32⟩]
  · intro v h32 h255
    rw [build_bwx_value_compact_int, if_neg (by omega), if_pos ⟨by omega, h255⟩]
  · intro v h256 h65535
    rw [build_bwx_value_compact_int, if_neg (by omega), if_neg (by omega),
      if_pos ⟨by omega, h65535⟩]
  · intro v hgt hlt
    rw [build_bwx_value_compact_int, if_neg (by omega), if_neg (by omega),
      if_neg (by omega), if_pos ⟨by omega, hlt⟩]

/-- Witness for C10: the decode branch at tag 5, the four encoder branches
at 7, 200, 40000 and 100000. -/
theorem claim_C10_witness :
    ((5 : Nat) < 0x20 ∧ run bwx_value [5, 1, 2] = .ok ⟨5, BVal.pnone, BVal.int 5⟩ [1, 2])
  ∧ build_bwx_value_compact_int 7 = .ok [7]
  ∧ build_bwx_value_compact_int 200 = .ok [0x59, 200]
  ∧ build_bwx_value_compact_int 40000 = .ok (0x57 :: le2 40000)
  ∧ build_bwx_value_compact_int 100000 = .ok (0x49 :: le4 100000) := by
  refine ⟨⟨by decide, ?_⟩, ?_, ?_, ?_, ?_⟩
  · exact claim_C10_immediate_small_ints.1 5 [1, 2] (by decide)
  · exact claim_C10_immediate_small_ints.2.1 7 (by decide) (by decide)
  · exact claim_C10_immediate_small_ints.2.2.1 200 (by decide) (by decide)
  · exact claim_C10_immediate_small_ints.2.2.2.1 40000 (by decide) (by decide)
  · exact claim_C10_immediate_small_ints.2.2.2.2.1 100000 (by decide) (by decide)

/-- Counterexample to claim C4 as stated: tag 0x45 has no Switch case and
is not an inline-blob tag, yet the decode succeeds (returning the None
data) rather than failing with any error. -/
theorem claim_C4_counterexample :
    run bwx_value [0x45] = .ok ⟨0x45, BVal.pnone, BVal.pnone⟩ []
    ∧ ∀ e : PErr, run bwx_value [0x45] ≠ .err e := by
  constructor
  · decide
  · intro e
    cases e <;> decide

/-- Claim C4 as amended: for every tag byte with no Switch case that is not
above 0x80, decoding succeeds, consumes only the tag byte, parses no
payload (the Switch falls through to Pass), and yields the tag itself as
the value below 0x20 and None otherwise. -/
theorem claim_C4_unknown_tag_passes (t : Nat) (rest : List Nat)
    (hle : t ≤ 0x80) (hnr : t ∉ recognizedTags) :
    run bwx_value (t :: rest) =
      .ok ⟨t, BVal.pnone, if t < 0x20 then BVal.int t else BVal.pnone⟩ rest :=
  run_bwx_value_unknown t rest hle hnr

/-- Witness for C4 at tag 0x60. -/
theorem claim_C4_witness :
    (0x60 : Nat) ≤ 0x80 ∧ (0x60 : Nat) ∉ recognizedTags ∧
    run bwx_value [0x60, 9] =
      .ok ⟨0x60, BVal.pnone, if (0x60 : Nat) < 0x20 then BVal.int 0x60 else BVal.pnone⟩ [9] := by
  refine ⟨by decide, by decide, ?_⟩
  exact claim_C4_unknown_tag_passes 0x60 [9] (by decide) (by decide)

/-- Counterexample to claim C5 as stated: tag 0x80 does not decode to a
zero-length inline blob; the blob branch requires tag > 0x80, so 0x80
falls through the Switch to Pass and the decoded data is None, which is
not the empty byte blob. -/
theorem claim_C5_counterexample :
    run bwx_value [0x80] = .ok ⟨0x80, BVal.pnone, BVal.pnone⟩ []
    ∧ BVal.pnone ≠ BVal.bytes [] := by
  exact ⟨by decide, by decide⟩

/-- Claim C5 as amended: tag 0x80 decodes with no payload (None); tag 0xFF
decodes to a 127-byte inline blob; tag 0x81 with no remaining bytes fails
with the truncated-stream error. -/
theorem claim_C5_inline_blob_boundary :
    (∀ rest : List Nat, run bwx_value (0x80 :: rest) =
      .ok ⟨0x80, BVal.pnone, BVal.pnone⟩ rest)
  ∧ (∀ data rest : List Nat, data.length = 127 →
      run bwx_value (0xFF :: (data ++ rest)) =
        .ok ⟨0xFF, BVal.bytes data, BVal.bytes data⟩ rest)
  ∧ run bwx_value [0x81] = .err .truncated := by
  refine ⟨?_, ?_, by decide⟩
  · intro rest
    have h := run_bwx_value_unknown 0x80 rest (by decide) (by decide)
    simpa using h
  · intro data rest hlen
    exact run_bwx_value_blob 0xFF data rest (by decide) (by simpa using hlen)

/-- Witness for C5: the 0x80 branch on a concrete stream and the 0xFF
branch at a concrete 127-byte blob. -/
theorem claim_C5_witness :
    run bwx_value [0x80, 3] = .ok ⟨0x80, BVal.pnone, BVal.pnone⟩ [3]
    ∧ (List.replicate 127 (0 : Nat)).length = 127
    ∧ run bwx_value (0xFF :: (List.replicate 127 (0 : Nat) ++ [4])) =
        .ok ⟨0xFF, BVal.bytes (List.replicate 127 0), BVal.bytes (List.replicate 127 0)⟩ [4] := by
  refine ⟨?_, by decide, ?_⟩
  · exact claim_C5_inline_blob_boundary.1 [3]
  · exact claim_C5_inline_blob_boundary.2.1 (List.replicate 127 0) [4] (by decide)

/-- Decoding the A + size + count header of a built Array payload. -/
theorem arrayHeaderVals_build (X Y : Nat) (Z : List Nat) :
    arrayHeaderVals (65 :: (buildVarIntNat X ++ (buildVarIntNat Y ++ Z))) =
      some (X, Y, Z) := by
  simp [arrayHeaderVals, packedIntParseAux_build, packedValue_varintGroups]

/-- Counterexample to claim C2 as stated: for the concrete sub-material
with zero colors, an empty highlight tuple and no texture, the emitted
size field decodes to 55 while exactly 45 bytes follow the count field;
the emitted size is not the exact trailing byte length. -/
theorem claim_C2_counterexample :
    arrayHeaderVals (build_sub_material ⟨0, 0, 0, [], Option.none⟩) =
      some (55, 8, build_sub_material_inner ⟨0, 0, 0, [], Option.none⟩)
    ∧ (build_sub_material_inner ⟨0, 0, 0, [], Option.none⟩).length = 45
    ∧ (55 : Nat) ≠ 45 := by
  refine ⟨by decide, by decide, by decide⟩

/-- Claim C2 as amended: for every Array payload emitted by
_build_sub_material and _build_mtrl_block, the emitted size field decodes
to the byte length of everything following the count field plus the fixed
padding constant 10 (so the decoder's size-minus-count-length rule would
read 10 bytes beyond what was written, not exactly the written bytes). -/
theorem claim_C2_size_field_padding :
    (∀ sm : SubMtrlW,
      arrayHeaderVals (build_sub_material sm) =
        some ((build_sub_material_inner sm).length + 10,
          build_sub_material_count sm, build_sub_material_inner sm))
  ∧ (∀ materials : List MaterialW,
      build_mtrl_block materials =
        build_prefixed_string (asc "MTRL") ++ build_mtrl_outer materials
      ∧ arrayHeaderVals (build_mtrl_outer materials) =
        some ((build_mtrl_mat_array materials).length + 10,
          materials.length, build_mtrl_mat_array materials)) := by
  constructor
  · intro sm
    exact arrayHeaderVals_build _ _ _
  · intro materials
    exact ⟨rfl, arrayHeaderVals_build _ _ _⟩

/-- Concrete v1 sub-mesh frame used to exhibit the winding bug. -/
def mshxExampleFrame : MeshfRec :=
  { size := 0, count := 5, timeline := ⟨0x49, BVal.int 0, BVal.int 0⟩,
    vb_size := 0, vertex_count := 0, vertex_buffer := [],
    uv_size := 0, uv_count := 0, uv_buffer := [] }

/-- Concrete v1 mesh record whose raw index stream is the triple 0, 1, 2
(as immediate small-int values). -/
def mshxExampleMesh : MeshRec :=
  { size := 0, count := 10, sub_size := 0, sub_count := 1,
    sub_mesh := [mshxExampleFrame], sub_material_size := 0,
    sub_material_count := 1, sub_material := [⟨0, BVal.pnone, BVal.int 0⟩],
    ib_size := 0, index_count := 3,
    index_buffer := [⟨0, BVal.pnone, BVal.int 0⟩, ⟨1, BVal.pnone, BVal.int 1⟩,
      ⟨2, BVal.pnone, BVal.int 2⟩],
    unknown1 := ⟨0, BVal.pnone, BVal.int 0⟩,
    unknown2 := ⟨0, BVal.pnone, BVal.int 0⟩,
    unknown3 := ⟨0, BVal.pnone, BVal.int 0⟩,
    unknown_20 := ⟨0, BVal.pnone, BVal.int 0⟩ }

/-- Concrete v1 object tagged MSHX that owns the example mesh. -/
def mshxExampleObj : ObjEntry :=
  { size := 0, count := 10, name := ⟨0x53, BVal.str [], BVal.str []⟩,
    unknown1 := ⟨0, BVal.pnone, BVal.int 0⟩,
    material := ⟨0, BVal.pnone, BVal.int 0⟩,
    unknown2 := ⟨0, BVal.pnone, BVal.int 0⟩,
    unknown3 := ⟨0, BVal.pnone, BVal.int 0⟩,
    direction := DIRECTION_MSHX, mesh_size := 0, mesh_count := 1,
    mesh := [mshxExampleMesh], matrix_size := 0, matrix_count := 0,
    matrix := [], sfx := ⟨0, BVal.pnone, BVal.int 0⟩,
    whatisthis := Option.none }

/-- Claim C1 (code bug): the importer computes the winding flip with
obj_direction_is_mshx(m) where m is the mesh record, which declares no
direction field, so the caught AttributeError makes the flag False for
every mesh of both dialects, and the triple of an MSHX-tagged object is
emitted unchanged as (a, b, c) instead of (a, c, b).  The same function
applied to an object record does test the MSHX tag, showing the flag would
work on the intended argument. -/
theorem claim_C1_flip_flag_computed_from_mesh :
    (∀ m : MeshRec, obj_direction_is_mshx m.attrs = false)
  ∧ (∀ m : DxMeshRec, obj_direction_is_mshx m.attrs = false)
  ∧ (∀ o : ObjEntry, obj_direction_is_mshx o.attrs = (o.direction == DIRECTION_MSHX))
  ∧ (∀ o : DxObjEntry, obj_direction_is_mshx o.attrs = (o.direction == DIRECTION_MSHX))
  ∧ (mshxExampleObj.direction = DIRECTION_MSHX
    ∧ obj_direction_is_mshx mshxExampleObj.attrs = true
    ∧ mshxExampleObj.mesh = [mshxExampleMesh]
    ∧ parse_v1_mesh mshxExampleMesh mshxExampleFrame =
        some (⟨BVal.int 0, BVal.int 0, [], [],
          [(BVal.int 0, BVal.int 1, BVal.int 2)]⟩ : MeshDataE)) := by
  refine ⟨fun m => rfl, fun m => rfl, fun o => rfl, fun o => rfl,
    by decide, by decide, by decide, by decide⟩

/-- Scalar stream of one bwx_dx_vertex_struct record. -/
def encodeRec (r : DxVertexQ) : List ℚ :=
  [r.positions.1, r.positions.2.1, r.positions.2.2,
   r.normals.1, r.normals.2.1, r.normals.2.2,
   r.tex_coords.1, r.tex_coords.2]

theorem parse_dx_vertices_length :
    ∀ (n : Nat) (s : List ℚ) (vb : List DxVertexQ),
      parse_dx_vertices n s = some vb → vb.length = n := by
  intro n
  induction n with
  | zero =>
    intro s vb h
    simp only [parse_dx_vertices, Option.some.injEq] at h
    simp [← h]
  | succ n ih =>
    intro s vb h
    simp only [parse_dx_vertices] at h
    cases hread : bwx_dx_vertex_read s with
    | none => rw [hread] at h; simp at h
    | some pr =>
      obtain ⟨v, rest⟩ := pr
      rw [hread] at h
      have h2 : Option.map (fun vs => v :: vs) (parse_dx_vertices n rest) = some vb := h
      cases hp : parse_dx_vertices n rest with
      | none => rw [hp] at h2; cases h2
      | some vs =>
        rw [hp] at h2
        simp at h2
        rw [← h2, List.length_cons, ih rest vs hp]

/-- Parsing back the concatenated scalar streams of a record list (with
anything appended) recovers the records. -/
theorem parse_dx_of_encoded :
    ∀ (rs : List DxVertexQ) (t : List ℚ),
      parse_dx_vertices rs.length ((rs.map encodeRec).flatten ++ t) = some rs := by
  intro rs
  induction rs with
  | nil => intro t; rfl
  | cons r rest ih =>
    intro t
    obtain ⟨⟨a, b, c⟩, ⟨d, e, f⟩, ⟨g, h⟩⟩ := r
    simp only [List.map_cons, List.flatten_cons, List.length_cons, encodeRec,
      List.append_assoc]
    simp only [parse_dx_vertices, List.cons_append, List.nil_append,
      bwx_dx_vertex_read]
    rw [ih t]
    rfl

theorem map_range_getD {α : Type} (l : List α) (d : α) :
    (List.range l.length).map (fun i => l.getD i d) = l := by
  induction l with
  | nil => rfl
  | cons a as ih =>
    rw [List.length_cons, List.range_succ_eq_map, List.map_cons, List.map_map]
    have hc : ((fun i => (a :: as).getD i d) ∘ Nat.succ) = (fun i => as.getD i d) := rfl
    rw [hc, ih]
    rfl

/-- Record i of the interleaved buffer _build_v2_vertex_buffer emits (the
loop body of bwx_writer.py, including the V re-flip and the defaults for
missing normals or UVs). -/
def v2RecordOf (m : MeshW) (i : Nat) : DxVertexQ :=
  { positions := m.positions.getD i (0, 0, 0)
    normals := if i < m.normals.length then m.normals.getD i (0, 0, 1) else (0, 0, 1)
    tex_coords := if i < m.tex_coords.length then
        (let t := m.tex_coords.getD i (0, 0); (t.1, 1 - t.2))
      else ((0 : ℚ), (0 : ℚ)) }

/-- All-zero dummy record (struct.pack of 8 zero floats). -/
def zeroRecQ : DxVertexQ := ⟨(0, 0, 0), (0, 0, 0), (0, 0)⟩

theorem take_exact {α : Type} (l1 l2 : List α) (n : Nat) (h : l1.length = n) :
    (l1 ++ l2).take n = l1 := by
  subst h
  exact List.take_left l1 l2

/-- Counterexample to claim C6 as stated at N = 0: a v2 mesh frame whose
declared vertex_count is 0 + 2 = 2 (two all-zero records) decodes to two
logical vertices, not zero — the stripping guard only fires above two
records (and the V-flip still applies, turning stored 0 into 1). -/
theorem claim_C6_counterexample :
    parse_v2_mesh_vertices 2 (List.replicate 16 (0 : ℚ)) =
      some ([((0 : ℚ), (0 : ℚ), (0 : ℚ)), (0, 0, 0)],
            [((0 : ℚ), (0 : ℚ), (0 : ℚ)), (0, 0, 0)],
            [((0 : ℚ), (1 : ℚ)), (0, 1)])
    ∧ ([((0 : ℚ), (0 : ℚ), (0 : ℚ)), (0, 0, 0)] : List (ℚ × ℚ × ℚ)).length ≠ 0 := by
  constructor
  · unfold parse_v2_mesh_vertices
    rw [show parse_dx_vertices 2 (List.replicate 16 (0 : ℚ)) =
      some [zeroRecQ, zeroRecQ] from rfl]
    norm_num [zeroRecQ]
  · decide

/-- Claim C6 as amended: for a v2 mesh frame with declared vertex_count
N + 2 where N is at least 1, decoding strips exactly the two trailing
records and yields N logical vertices with the UV V-coordinate un-flipped
to 1 - stored_v; the writer's interleaved buffer declares
len(positions) + 2 vertices and parses back to the per-index records
followed by exactly two all-zero dummy records with V re-flipped on the
way out, so that writing then reading a frame with matching normal and UV
counts returns the original positions, normals and tex_coords. -/
theorem claim_C6_v2_dummy_vertices :
    (∀ (N : Nat) (scalars : List ℚ) (vb : List DxVertexQ),
      parse_dx_vertices (N + 2) scalars = some vb → 1 ≤ N →
        parse_v2_mesh_vertices (N + 2) scalars =
          some ((vb.take N).map (fun v => v.positions),
                (vb.take N).map (fun v => v.normals),
                (vb.take N).map (fun v => (v.tex_coords.1, 1 - v.tex_coords.2)))
        ∧ ((vb.take N).map (fun v => v.positions)).length = N)
  ∧ (∀ m : MeshW,
      parse_dx_vertices (build_v2_vertex_count m) (build_v2_vertex_buffer m) =
        some ((List.range m.positions.length).map (v2RecordOf m)
          ++ [zeroRecQ, zeroRecQ]))
  ∧ (∀ m : MeshW, 1 ≤ m.positions.length →
      m.normals.length = m.positions.length →
      m.tex_coords.length = m.positions.length →
      parse_v2_mesh_vertices (build_v2_vertex_count m) (build_v2_vertex_buffer m) =
        some (m.positions, m.normals, m.tex_coords)) := by
  have hB : ∀ m : MeshW,
      parse_dx_vertices (build_v2_vertex_count m) (build_v2_vertex_buffer m) =
        some ((List.range m.positions.length).map (v2RecordOf m)
          ++ [zeroRecQ, zeroRecQ]) := by
    intro m
    have h := parse_dx_of_encoded
      ((List.range m.positions.length).map (v2RecordOf m) ++ [zeroRecQ, zeroRecQ]) []
    rw [List.append_nil] at h
    have hlen2 : ((List.range m.positions.length).map (v2RecordOf m)
        ++ [zeroRecQ, zeroRecQ]).length = build_v2_vertex_count m := by
      simp [build_v2_vertex_count]
    rw [hlen2] at h
    have hbuf : ((((List.range m.positions.length).map (v2RecordOf m))
        ++ [zeroRecQ, zeroRecQ]).map encodeRec).flatten = build_v2_vertex_buffer m := by
      unfold build_v2_vertex_buffer
      rw [List.map_append, List.flatten_append, List.map_map]
      congr 1
    rw [hbuf] at h
    exact h
  have hA : ∀ (N : Nat) (scalars : List ℚ) (vb : List DxVertexQ),
      parse_dx_vertices (N + 2) scalars = some vb → 1 ≤ N →
        parse_v2_mesh_vertices (N + 2) scalars =
          some ((vb.take N).map (fun v => v.positions),
                (vb.take N).map (fun v => v.normals),
                (vb.take N).map (fun v => (v.tex_coords.1, 1 - v.tex_coords.2)))
        ∧ ((vb.take N).map (fun v => v.positions)).length = N := by
    intro N scalars vb hparse hN
    have hlen := parse_dx_vertices_length _ _ _ hparse
    constructor
    · unfold parse_v2_mesh_vertices
      rw [hparse]
      have hgt : vb.length > 2 := by omega
      simp only [if_pos hgt]
      rw [show vb.length - 2 = N from by omega]
    · simp only [List.length_map, List.length_take]
      omega
  refine ⟨hA, hB, ?_⟩
  intro m hn hnorm htex
  have hp := hB m
  rw [show build_v2_vertex_count m = m.positions.length + 2 from rfl] at hp
  obtain ⟨hmain, _⟩ := hA m.positions.length (build_v2_vertex_buffer m) _ hp hn
  rw [show m.positions.length + 2 = build_v2_vertex_count m from rfl] at hmain
  rw [hmain]
  have htake : (((List.range m.positions.length).map (v2RecordOf m))
      ++ [zeroRecQ, zeroRecQ]).take m.positions.length =
      (List.range m.positions.length).map (v2RecordOf m) :=
    take_exact _ _ _ (by simp)
  rw [htake]
  congr 1
  refine congrArg₂ _ ?_ (congrArg₂ _ ?_ ?_)
  · rw [List.map_map]
    exact map_range_getD m.positions (0, 0, 0)
  · rw [List.map_map]
    have hcong : ∀ i ∈ List.range m.positions.length,
        ((fun v => v.normals) ∘ v2RecordOf m) i = m.normals.getD i (0, 0, 1) := by
      intro i hi
      rw [List.mem_range] at hi
      simp only [Function.comp, v2RecordOf]
      rw [if_pos (by omega)]
    rw [List.map_congr_left hcong, show m.positions.length = m.normals.length from hnorm.symm]
    exact map_range_getD m.normals (0, 0, 1)
  · rw [List.map_map]
    have hcong : ∀ i ∈ List.range m.positions.length,
        ((fun v => (v.tex_coords.1, 1 - v.tex_coords.2)) ∘ v2RecordOf m) i =
          m.tex_coords.getD i (0, 0) := by
      intro i hi
      rw [List.mem_range] at hi
      simp only [Function.comp, v2RecordOf]
      rw [if_pos (by omega)]
      have : (1 : ℚ) - (1 - (m.tex_coords.getD i (0, 0)).2) = (m.tex_coords.getD i (0, 0)).2 := by
        ring
      simp [this]
    rw [List.map_congr_left hcong, show m.positions.length = m.tex_coords.length from htex.symm]
    exact map_range_getD m.tex_coords (0, 0)

/-- Witness for C6 at concrete inputs: the decode branch at N = 1 over 24
zero scalars, and the write-then-read round trip on a one-vertex frame. -/
theorem claim_C6_witness :
    parse_dx_vertices 3 (List.replicate 24 (0 : ℚ)) =
      some [zeroRecQ, zeroRecQ, zeroRecQ]
    ∧ (1 : Nat) ≤ 1
    ∧ parse_v2_mesh_vertices 3 (List.replicate 24 (0 : ℚ)) =
        some ([((0 : ℚ), (0 : ℚ), (0 : ℚ))], [((0 : ℚ), (0 : ℚ), (0 : ℚ))],
          [((0 : ℚ), (1 : ℚ))])
    ∧ parse_v2_mesh_vertices
        (build_v2_vertex_count ⟨7, [(1, 2, 3)], [(4, 5, 6)], [(7, 8)]⟩)
        (build_v2_vertex_buffer ⟨7, [(1, 2, 3)], [(4, 5, 6)], [(7, 8)]⟩) =
        some ([((1 : ℚ), (2 : ℚ), (3 : ℚ))], [((4 : ℚ), (5 : ℚ), (6 : ℚ))],
          [((7 : ℚ), (8 : ℚ))]) := by
  refine ⟨rfl, by decide, ?_, ?_⟩
  · have h := (claim_C6_v2_dummy_vertices.1 1 (List.replicate 24 (0 : ℚ))
      [zeroRecQ, zeroRecQ, zeroRecQ] rfl (by decide)).1
    rw [h]
    norm_num [zeroRecQ]
  · exact claim_C6_v2_dummy_vertices.2.2 ⟨7, [(1, 2, 3)], [(4, 5, 6)], [(7, 8)]⟩
      (by decide) (by decide) (by decide)

/-- Claim C9: a HEAD version of 0x0500 selects dialect 1 and a version of
0x0602 selects dialect 2; any other version makes _parse raise the
unsupported-version error; the object-graph block _parse_objects consults
is OBJ2 exactly for dialect 1 and SPOB otherwise (one selected dialect
drives every lookup; the embedding threads the single _sl_version value,
so no per-object mixing is possible). -/
theorem claim_C9_version_dispatch :
    (∀ (blocks : List BlockRec) (h : HeadRec),
      get_block blocks (asc "HEAD") = some (BlockData.head h) →
        (h.version = 0x0500 → importer_select_version blocks = .ok 1)
        ∧ (h.version = 0x0602 → importer_select_version blocks = .ok 2)
        ∧ (h.version ≠ 0x0500 → h.version ≠ 0x0602 →
            importer_select_version blocks = .error .unsupportedVersion))
  ∧ (∀ blocks : List BlockRec,
      parse_objects_block 1 blocks = get_block blocks (asc "OBJ2"))
  ∧ (∀ (v : Nat) (blocks : List BlockRec), v ≠ 1 →
      parse_objects_block v blocks = get_block blocks (asc "SPOB")) := by
  refine ⟨?_, ?_, ?_⟩
  · intro blocks h hget
    refine ⟨?_, ?_, ?_⟩
    · intro hv
      unfold importer_select_version
      rw [hget]
      simp [versionTag, hv]
    · intro hv
      unfold importer_select_version
      rw [hget]
      simp [versionTag, hv]
    · intro hv1 hv2
      unfold importer_select_version
      rw [hget]
      simp [versionTag, if_neg hv1, if_neg hv2]
  · intro blocks
    rfl
  · intro v blocks hv
    unfold parse_objects_block
    rw [if_neg hv]

/-- Header record with a given version and placeholder values. -/
def headRecWith (ver : Nat) : HeadRec :=
  ⟨0, 0, ⟨0, BVal.pnone, BVal.int 0⟩, ⟨0, BVal.pnone, BVal.int 0⟩, ver,
    ⟨0, BVal.pnone, BVal.int 0⟩⟩

/-- Block list holding just a HEAD block with a given version. -/
def blocksWith (ver : Nat) : List BlockRec :=
  [⟨asc "HEAD", BlockData.head (headRecWith ver)⟩]

/-- Witness for C9: dialect selection at versions 0x0500, 0x0602 and
0x0001, and the object-block lookup for both dialects. -/
theorem claim_C9_witness :
    importer_select_version (blocksWith 0x0500) = .ok 1
    ∧ importer_select_version (blocksWith 0x0602) = .ok 2
    ∧ importer_select_version (blocksWith 0x0001) = .error .unsupportedVersion
    ∧ parse_objects_block 1 (blocksWith 0x0500) =
        get_block (blocksWith 0x0500) (asc "OBJ2")
    ∧ parse_objects_block 2 (blocksWith 0x0602) =
        get_block (blocksWith 0x0602) (asc "SPOB") := by
  refine ⟨?_, ?_, ?_, ?_, ?_⟩
  · exact ((claim_C9_version_dispatch.1 (blocksWith 0x0500) (headRecWith 0x0500)
      (by decide)).1 (by decide))
  · exact ((claim_C9_version_dispatch.1 (blocksWith 0x0602) (headRecWith 0x0602)
      (by decide)).2.1 (by decide))
  · exact ((claim_C9_version_dispatch.1 (blocksWith 0x0001) (headRecWith 0x0001)
      (by decide)).2.2 (by decide) (by decide))
  · exact claim_C9_version_dispatch.2.1 (blocksWith 0x0500)
  · exact claim_C9_version_dispatch.2.2 2 (blocksWith 0x0602) (by decide)

theorem set_ne_self {α : Type} (l : List α) (i : Nat) (c d : α)
    (hi : i < l.length) (hc : c ≠ l.getD i d) : l.set i c ≠ l := by
  induction l generalizing i with
  | nil => simp at hi
  | cons a as ih =>
    cases i with
    | zero =>
      intro heq
      simp only [List.set, List.cons.injEq] at heq
      exact hc (by simpa [List.getD] using heq.1)
    | succ i =>
      intro heq
      simp only [List.set, List.cons.injEq] at heq
      exact ih i (by simpa using hi) (by simpa [List.getD] using hc) heq.2

/-- Counterexample to claim C3 as stated: the minimal buffer (BWXF, zero
content size, zero blocks, FXWB) does not decode to an empty BWXData; the
importer raises the missing-HEAD ImportError. -/
theorem claim_C3_counterexample :
    importer_parse [66, 87, 88, 70, 0, 0, 70, 88, 87, 66] = .error .missingHead := by
  decide

/-- Claim C3 as amended: the minimal buffer parses at the container level
to zero blocks (the BWXData-level decode then failing on the absent HEAD
block), and for every buffer the container parser accepts, altering any
single byte of the leading BWXF signature or of the trailing FXWB
signature makes the parse fail with the Const-mismatch error (the spec's
BadSignature). -/
theorem claim_C3_framing :
    (run bwx_struct [66, 87, 88, 70, 0, 0, 70, 88, 87, 66] =
        .ok ⟨0, 0, []⟩ []
      ∧ importer_parse [66, 87, 88, 70, 0, 0, 70, 88, 87, 66] =
        .error .missingHead)
  ∧ (∀ (B : List Nat) (f : BwxFile) (rest : List Nat),
      run bwx_struct B = .ok f rest →
      ∃ mid, B = asc "BWXF" ++ (mid ++ (asc "FXWB" ++ rest))
        ∧ (∀ i, i < 4 → ∀ c, c ≠ (asc "BWXF").getD i 0 →
            run bwx_struct
              ((asc "BWXF").set i c ++ (mid ++ (asc "FXWB" ++ rest))) =
              .err .constMismatch)
        ∧ (∀ i, i < 4 → ∀ c, c ≠ (asc "FXWB").getD i 0 →
            run bwx_struct
              (asc "BWXF" ++ (mid ++ ((asc "FXWB").set i c ++ rest))) =
              .err .constMismatch)) := by
  have hb : bwx_struct = PSyn.bindP (constP (asc "BWXF"))
      (fun x => PSyn.bindP bwx_body
        (fun g => PSyn.bindP (constP (asc "FXWB"))
          (fun y => PSyn.pureP g))) := rfl
  constructor
  · exact ⟨by decide, by decide⟩
  · intro B f rest h
    rw [hb] at h
    cases h1 : run (constP (asc "BWXF")) B with
    | err e => rw [run_bindP_err _ _ _ _ h1] at h; cases h
    | ok u B1 =>
      have hsplit1 : B = asc "BWXF" ++ B1 := run_constP_inv _ _ _ _ h1
      rw [run_bindP_ok _ _ _ _ _ h1] at h
      cases h2 : run bwx_body B1 with
      | err e => rw [run_bindP_err _ _ _ _ h2] at h; cases h
      | ok g B2 =>
        rw [run_bindP_ok _ _ _ _ _ h2] at h
        cases h3 : run (constP (asc "FXWB")) B2 with
        | err e => rw [run_bindP_err _ _ _ _ h3] at h; cases h
        | ok u2 B3 =>
          rw [run_bindP_ok _ _ _ _ _ h3] at h
          have hg : g = f ∧ B3 = rest := by
            simpa [run] using h
          have hsplit3 : B2 = asc "FXWB" ++ B3 := run_constP_inv _ _ _ _ h3
          obtain ⟨mid, hmid⟩ := run_suffix bwx_body B1 g B2 h2
          refine ⟨mid, ?_, ?_, ?_⟩
          · rw [hsplit1, hmid, hsplit3, hg.2]
          · intro i hi c hc
            rw [hb]
            have hlen : ((asc "BWXF").set i c).length = (asc "BWXF").length := by
              simp
            have hne : (asc "BWXF").set i c ≠ asc "BWXF" :=
              set_ne_self _ i c 0 (by simp [asc]; omega) hc
            rw [run_bindP_err _ _ _ _ (run_constP_mismatch _ _ _ hlen hne)]
          · intro i hi c hc
            rw [hb]
            rw [run_bindP_ok _ _ _ _ _
              (run_constP_ok (asc "BWXF") (mid ++ ((asc "FXWB").set i c ++ rest)))]
            have hbody : run bwx_body (mid ++ B2) = .ok g B2 := by
              rw [← hmid]; exact h2
            have hext := run_ext bwx_body mid B2 g hbody
              ((asc "FXWB").set i c ++ rest)
            rw [run_bindP_ok _ _ _ _ _ hext]
            have hlen : ((asc "FXWB").set i c).length = (asc "FXWB").length := by
              simp
            have hne : (asc "FXWB").set i c ≠ asc "FXWB" :=
              set_ne_self _ i c 0 (by simp [asc]; omega) hc
            rw [run_bindP_err _ _ _ _ (run_constP_mismatch _ _ _ hlen hne)]

/-- Witness for C3 at the minimal buffer: the parse hypothesis is
discharged by evaluation and the alteration properties follow from the
amended theorem. -/
theorem claim_C3_witness :
    run bwx_struct [66, 87, 88, 70, 0, 0, 70, 88, 87, 66] =
      .ok (⟨0, 0, []⟩ : BwxFile) []
    ∧ (∃ mid, [66, 87, 88, 70, 0, 0, 70, 88, 87, 66] =
          asc "BWXF" ++ (mid ++ (asc "FXWB" ++ []))
        ∧ (∀ i, i < 4 → ∀ c, c ≠ (asc "BWXF").getD i 0 →
            run bwx_struct
              ((asc "BWXF").set i c ++ (mid ++ (asc "FXWB" ++ []))) =
              .err .constMismatch)
        ∧ (∀ i, i < 4 → ∀ c, c ≠ (asc "FXWB").getD i 0 →
            run bwx_struct
              (asc "BWXF" ++ (mid ++ ((asc "FXWB").set i c ++ []))) =
              .err .constMismatch)) :=
  ⟨by decide,
    claim_C3_framing.2 [66, 87, 88, 70, 0, 0, 70, 88, 87, 66]
      (⟨0, 0, []⟩ : BwxFile) [] (by decide)⟩
